import Mathlib

/-!
# makemecall: scheduling, skip and status reconciliation

A shallow embedding of the Go package `app` (main.go, datastore.go, twilio.go,
reps.go) and a verification of its scheduling and skip behaviour.

* Instants are whole Unix seconds (`Int`); the nanosecond part of `time.Now()`
  never reaches a result of the functions below.  Go's `uint64`/`int64`
  arithmetic on absolute seconds is exact for every instant it can represent,
  so it is written over `Int`.
* The Go library functions the program calls (`time.Date`,
  `Time.Year/Month/Day/Weekday`, `rand.Int63n`, `strings.Trim/Split/Contains`,
  `regexp.MatchString`, `strconv.Atoi`) are embedded by their algorithms; the
  location America/New_York by the rule of the tz database in force since 2007.
* The App Engine datastore is a value of type `Store` threaded through every
  operation.  Its service is taken to answer every request: the errors are
  those it returns for the keys it is given (`ErrNoSuchEntity`,
  `ErrInvalidKey`, the rejection of an incomplete key, `Done`).
* What a handler reads from outside the program (the clock, random draws, the
  representatives service, the provider's answer, `strings.ToUpper`, the
  formatting of a time, the HMAC under the secret token) is a field of `Env`;
  what it does to the outside (calls placed, texts sent, tasks enqueued) is
  recorded in `World`.
-/

namespace MakeMeCall

/-! ## Go package `time`: absolute seconds and the calendar -/

/-- Seconds from the absolute epoch of package `time` (1 January of the year
`absoluteZeroYear`) to the Unix epoch: `unixToInternal + internalToAbsolute`. -/
def unixToAbsolute : Int := 62135596800 + 9223371966579724800

/-- Year of the absolute epoch of package `time`. -/
def absoluteZeroYear : Int := -292277022399

/-- Go `isLeap`: Gregorian leap year test. -/
def isLeap (year : Int) : Bool :=
  year % 4 == 0 && (year % 100 != 0 || year % 400 == 0)

/-- Go table `daysBefore`: `daysBefore m` is the number of days in a non-leap
year before month `m + 1` starts. -/
def daysBefore (m : Int) : Int :=
  if m ≤ 0 then 0 else if m = 1 then 31 else if m = 2 then 59 else if m = 3 then 90
  else if m = 4 then 120 else if m = 5 then 151 else if m = 6 then 181
  else if m = 7 then 212 else if m = 8 then 243 else if m = 9 then 273
  else if m = 10 then 304 else if m = 11 then 334 else 365

/-- First half of Go `absDate`: the year (counted from the absolute zero year)
and the zero-based day of the year of an absolute day number. -/
def absYear (d : Int) : Int × Int :=
  -- Account for 400 year cycles.
  let n400 := d / 146097
  let d1 := d - 146097 * n400
  -- Cut off 100-year cycles (converting 4 to 3).
  let n := d1 / 36524
  let n100 := n - n / 4
  let d2 := d1 - 36524 * n100
  -- Cut off 4-year cycles.
  let n4 := d2 / 1461
  let d3 := d2 - 1461 * n4
  -- Cut off years within a 4-year cycle (converting 4 to 3).
  let m := d3 / 365
  let n1 := m - m / 4
  (400 * n400 + 100 * n100 + 4 * n4 + n1, d3 - 365 * n1)

/-- Second half of Go `absDate`: month (January is 1) and day of the month from
the leap flag of the year and the zero-based day of the year. -/
def monthDay (leap : Bool) (yday : Int) : Int × Int :=
  if leap && yday == 59 then (2, 29)
  else
    let day := if leap && yday > 59 then yday - 1 else yday
    let month := day / 31
    let e := daysBefore (month + 1)
    if day ≥ e then (month + 2, day - e + 1)
    else (month + 1, day - daysBefore month + 1)

/-- Go `norm`: carries `lo` into `hi` so that `0 ≤ lo < base`. -/
def norm (hi lo base : Int) : Int × Int :=
  let (hi, lo) :=
    if lo < 0 then
      let n := (-lo - 1) / base + 1
      (hi - n, lo + n * base)
    else (hi, lo)
  if lo ≥ base then
    let n := lo / base
    (hi + n, lo - n * base)
  else (hi, lo)

/-- The day-counting part of Go `time.Date`: the absolute day number of
`year`-`month`-`day`, where month and day may lie outside their usual ranges. -/
def dateDays (year month day : Int) : Int :=
  -- Normalize month, overflowing into year.
  let (year, m) := norm year (month - 1) 12
  let month := m + 1
  let y := year - absoluteZeroYear
  -- Add in days from 400-year cycles.
  let n := y / 400
  let y := y - 400 * n
  let d := 146097 * n
  -- Add in 100-year cycles.
  let n := y / 100
  let y := y - 100 * n
  let d := d + 36524 * n
  -- Add in 4-year cycles.
  let n := y / 4
  let y := y - 4 * n
  let d := d + 1461 * n
  -- Add in non-leap years.
  let d := d + 365 * y
  -- Add in days before this month.
  let d := d + daysBefore (month - 1)
  let d := if isLeap year && month ≥ 3 then d + 1 else d
  -- Add in days before today.
  d + (day - 1)

/-- Days from the absolute epoch to 1 January of the year `y` counted from the
absolute zero year, as accumulated by `dateDays`. -/
def yearDays (y : Int) : Int :=
  146097 * (y / 400) + 36524 * ((y - 400 * (y / 400)) / 100)
    + 1461 * ((y - 400 * (y / 400) - 100 * ((y - 400 * (y / 400)) / 100)) / 4)
    + 365 * (y - 400 * (y / 400) - 100 * ((y - 400 * (y / 400)) / 100)
        - 4 * ((y - 400 * (y / 400) - 100 * ((y - 400 * (y / 400)) / 100)) / 4))

/-! ## The location America/New_York -/

/-- Absolute day number of the first Sunday on or after `year`-`month`-`day`
(absolute day 0 is a Monday). -/
def sundayOnOrAfter (year month day : Int) : Int :=
  let d := dateDays year month day
  d + (7 - (d + 1) % 7) % 7

/-- Unix second at which daylight saving time starts in `year`: the second
Sunday in March, 02:00 EST, which is 07:00 UTC. -/
def dstStart (year : Int) : Int :=
  sundayOnOrAfter year 3 8 * 86400 + 7 * 3600 - unixToAbsolute

/-- Unix second at which daylight saving time ends in `year`: the first Sunday
in November, 02:00 EDT, which is 06:00 UTC. -/
def dstEnd (year : Int) : Int :=
  sundayOnOrAfter year 11 1 * 86400 + 6 * 3600 - unixToAbsolute

/-- A zone period as returned by Go `Location.lookup`: the offset east of UTC
in seconds and the Unix seconds `[start, stop)` during which it is in force. -/
structure Zone where
  offset : Int
  start : Int
  stop : Int
deriving DecidableEq, Repr

/-- Go `nytz.lookup`: the zone in force in America/New_York at a Unix second,
by the rule of the tz database in force since 2007 (EST5EDT,M3.2.0,M11.1.0),
which Go also extends into the future.  Years before 2007 are read by the same
rule. -/
def lookup (unix : Int) : Zone :=
  let year := (absYear ((unix + unixToAbsolute) / 86400)).1 + absoluteZeroYear
  if unix < dstStart year then ⟨-18000, dstEnd (year - 1), dstStart year⟩
  else if unix < dstEnd year then ⟨-14400, dstStart year, dstEnd year⟩
  else ⟨-18000, dstEnd year, dstStart (year + 1)⟩

/-- Go `Time.abs` for a time in location `nytz`: seconds since the absolute
epoch on the New York wall clock. -/
def abs (t : Int) : Int :=
  t + (lookup t).offset + unixToAbsolute

/-- Absolute day number of the New York calendar date of `t`. -/
def localDay (t : Int) : Int := abs t / 86400

/-- Seconds elapsed since New York local midnight at `t`. -/
def localSecondOfDay (t : Int) : Int := abs t % 86400

/-- Go `Time.Year` in location `nytz`. -/
def Year (t : Int) : Int := (absYear (localDay t)).1 + absoluteZeroYear

/-- Go `Time.Month` in location `nytz` (January is 1). -/
def Month (t : Int) : Int := (monthDay (isLeap (Year t)) (absYear (localDay t)).2).1

/-- Go `Time.Day` in location `nytz`. -/
def Day (t : Int) : Int := (monthDay (isLeap (Year t)) (absYear (localDay t)).2).2

/-- Go `Time.Weekday` in location `nytz`: Sunday is 0, Saturday is 6.  Go's
`absWeekday` shifts by one day because absolute day 0 is a Monday. -/
def Weekday (t : Int) : Int := ((abs t + 1 * 86400) % (7 * 86400)) / 86400

def Sunday : Int := 0
def Friday : Int := 5
def Saturday : Int := 6

/-- Go `time.Date(year, month, day, hour, min, sec, 0, nytz)`. -/
def Date (year month day hour min sec : Int) : Int :=
  -- Normalize sec, min, hour, overflowing into day.
  let (min, sec) := norm min sec 60
  let (hour, min) := norm hour min 60
  let (day, hour) := norm day hour 24
  let d := dateDays year month day
  let abs := d * 86400 + (hour * 3600 + min * 60 + sec)
  let unix := abs - unixToAbsolute
  -- Look for zone offset for t, so we can adjust to UTC.
  let z := lookup unix
  if z.offset ≠ 0 then
    let utc := unix - z.offset
    let offset :=
      if utc < z.start then (lookup (z.start - 1)).offset
      else if utc ≥ z.stop then (lookup z.stop).offset
      else z.offset
    unix - offset
  else unix

/-! ## Go package `math/rand` -/

/-- Go `rand.Int63n(n)`: the accepted 63-bit draw reduced modulo `n`. -/
def Int63n (draw : Nat) (n : Nat) : Nat := draw % n

/-! ## main.go: someTimeTomorrow -/

/-- The day increment chosen by the `switch now.Weekday()` of
`someTimeTomorrow`. -/
def addDays (now : Int) : Int :=
  if Weekday now = Friday then 3
  else if Weekday now = Saturday then 2
  else 1

/-- The value `noonTomorrow` of `someTimeTomorrow`. -/
def noonTomorrow (now : Int) : Int :=
  Date (Year now) (Month now) (Day now + addDays now) 12 0 0

/-- Go `someTimeTomorrow`, with `time.Now()` and the random draw as inputs. -/
def someTimeTomorrow (now : Int) (draw : Nat) : Int :=
  -- Add a random number of seconds between 0 and 5 hours.
  let r : Int := Int63n draw 18000
  noonTomorrow now + r


/-! ## Go packages `strings`, `regexp`, `strconv` -/

/-- Go `strings.Trim(s, " ")`: strips leading and trailing spaces. -/
def Trim (s : String) : String :=
  String.mk ((s.data.dropWhile (· == ' ')).reverse.dropWhile (· == ' ')).reverse

/-- Splits a character list at every space, as `strings.Split(s, " ")` does. -/
def splitChars : List Char → List (List Char)
  | [] => [[]]
  | c :: cs =>
    if c = ' ' then [] :: splitChars cs
    else
      match splitChars cs with
      | [] => [[c]]
      | w :: ws => (c :: w) :: ws

/-- Go `strings.Split(s, " ")`. -/
def Split (s : String) : List String := (splitChars s.data).map String.mk

/-- Go `strings.Contains(s, substr)`. -/
def Contains (s substr : String) : Bool :=
  s.data.tails.any (fun t => substr.data.isPrefixOf t)

/-- Character class `[0-9]`. -/
def isDigit (c : Char) : Bool := decide ('0' ≤ c) && decide (c ≤ '9')

/-- The group `(-[0-9]{4})?` of `joinRE` at the head of `cs`: the characters
left after it (it matches the empty string when no extension follows). -/
def matchExtension (cs : List Char) : List Char :=
  match cs with
  | '-' :: a :: b :: c :: d :: rest =>
    if isDigit a && isDigit b && isDigit c && isDigit d then rest else cs
  | _ => cs

/-- A match of `joinRE = "JOIN [0-9]{5}(-[0-9]{4})?"` starting at the head of
`cs`: the characters left after the match, if there is one. -/
def matchJoinAt (cs : List Char) : Option (List Char) :=
  match cs with
  | 'J' :: 'O' :: 'I' :: 'N' :: ' ' :: a :: b :: c :: d :: e :: rest =>
    if isDigit a && isDigit b && isDigit c && isDigit d && isDigit e
    then some (matchExtension rest) else none
  | _ => none

/-- Go `isJoin`: `joinRE.MatchString(s)`.  The expression carries no anchors, so
a match may start at any position of `s`. -/
def isJoin (s : String) : Bool := s.data.tails.any (fun t => (matchJoinAt t).isSome)

/-- Value of a string of decimal digits, `none` when it is empty or holds
another character (the syntax error of `strconv.ParseUint`). -/
def parseDigits (cs : List Char) : Option Nat :=
  if cs.isEmpty then none
  else cs.foldl (fun acc c =>
    match acc with
    | none => none
    | some v => if isDigit c then some (10 * v + (c.toNat - 48)) else none) (some 0)

/-- Go `strconv.Atoi` on a 64-bit platform, the error dropped: 0 on a syntax
error, the nearest `int64` bound on a range error. -/
def Atoi (s : String) : Int :=
  let (neg, ds) :=
    match s.data with
    | '+' :: cs => (false, cs)
    | '-' :: cs => (true, cs)
    | cs => (false, cs)
  match parseDigits ds with
  | none => 0
  | some v =>
    if neg then (if v > 2 ^ 63 then -(2 ^ 63) else -(v : Int))
    else (if v ≥ 2 ^ 63 then 2 ^ 63 - 1 else (v : Int))

/-- Wraps an integer into the range of `int64`. -/
def wrap64 (x : Int) : Int := (x + 2 ^ 63) % 2 ^ 64 - 2 ^ 63

/-! ## App Engine datastore -/

/-- Errors of the datastore and of this package. `badRequest` is the API error
the datastore service answers to a Get, Delete or ancestor query on an
incomplete key. -/
inductive Error where
  | ErrNoSuchEntity
  | ErrInvalidKey
  | Done
  | badRequest
  | ErrNoSkippableCalls
  | sidLookupFailed
deriving DecidableEq, Repr

deriving instance DecidableEq for Except

/-- Identifier part of a datastore key: a string name or a numeric id; a key
made by `datastore.NewKey(ctx, kind, stringID, intID, parent)`. The kind is
carried by the table the key is used with. -/
structure ID where
  stringID : String
  intID : Nat
deriving DecidableEq, Repr

/-- Go `datastore.NewKey` for a key without parent. -/
def NewKey (stringID : String) (intID : Nat) : ID := ⟨stringID, intID⟩

/-- Go `Key.Incomplete`. -/
def ID.Incomplete (k : ID) : Bool := k.stringID == "" && k.intID == 0

/-- Go `Key.valid` for a key without parent. -/
def ID.valid (k : ID) : Bool := !(k.stringID != "" && k.intID != 0)

/-- Key of kind "Call": `parent` is the key of kind "User" it descends from. -/
structure CallKey where
  parent : ID
  id : ID
deriving DecidableEq, Repr

/-- Go `Key.valid` for a key with a parent. -/
def CallKey.valid (k : CallKey) : Bool :=
  k.id.valid && !k.parent.Incomplete && k.parent.valid

structure User where
  PhoneNumber : String
  ZipCode : String
  NextCall : Int
deriving DecidableEq, Repr

/-- Entity of kind "Call". `Created` is an instant, `Duration` a
`time.Duration` in nanoseconds. -/
structure Call where
  Key : String
  To : String
  From : String
  Sid : String
  Created : Int
  Duration : Int
  Status : String
deriving DecidableEq, Repr

/-- The datastore: the entities of kind "User", "Call" and "SIDLookup", each
kind keyed without duplicates. A SIDLookup entity holds the key of a Call. -/
structure Store where
  users : AList (fun _ : ID => User)
  calls : AList (fun _ : CallKey => Call)
  sids : AList (fun _ : ID => CallKey)

/-- Every stored Call has a complete, valid key: an invariant of the
datastore, which stores no entity under an incomplete key. -/
def Store.wellFormed (s : Store) : Bool :=
  s.calls.keys.all (fun k => k.valid && !k.id.Incomplete)

/-- A numeric id unused in `ids`, as the datastore generates for an incomplete
key. -/
def freshID (ids : List ID) : ID := ⟨"", ids.foldl (fun m k => max m k.intID) 0 + 1⟩

/-- Go `datastore.Get` on a kind without parent keys. -/
def Get {V : Type} (t : AList (fun _ : ID => V)) (k : ID) : Except Error V :=
  if !k.valid then .error .ErrInvalidKey
  else if k.Incomplete then .error .badRequest
  else
    match t.lookup k with
    | some v => .ok v
    | none => .error .ErrNoSuchEntity

/-- Go `datastore.Put` on a kind without parent keys: an incomplete key is
completed by a generated id. -/
def Put {V : Type} (t : AList (fun _ : ID => V)) (k : ID) (v : V) :
    Except Error (AList (fun _ : ID => V)) :=
  if !k.valid then .error .ErrInvalidKey
  else if k.Incomplete then .ok (t.insert (freshID t.keys) v)
  else .ok (t.insert k v)

/-- Go `datastore.Delete` on a kind without parent keys. -/
def Delete {V : Type} (t : AList (fun _ : ID => V)) (k : ID) :
    Except Error (AList (fun _ : ID => V)) :=
  if !k.valid then .error .ErrInvalidKey
  else if k.Incomplete then .error .badRequest
  else .ok (t.erase k)

/-- Go `datastore.Get` on kind "Call". -/
def GetCallKey (t : AList (fun _ : CallKey => Call)) (k : CallKey) : Except Error Call :=
  if !k.valid then .error .ErrInvalidKey
  else if k.id.Incomplete then .error .badRequest
  else
    match t.lookup k with
    | some c => .ok c
    | none => .error .ErrNoSuchEntity

/-- Go `datastore.Put` on kind "Call". -/
def PutCallKey (t : AList (fun _ : CallKey => Call)) (k : CallKey) (c : Call) :
    Except Error (AList (fun _ : CallKey => Call)) :=
  if !k.valid then .error .ErrInvalidKey
  else if k.id.Incomplete then
    .ok (t.insert ⟨k.parent, freshID (t.keys.map (fun j => j.id))⟩ c)
  else .ok (t.insert k c)

/-- Go `datastore.RunInTransaction`: the writes of `f` are kept when `f`
returns no error and dropped when it returns one. -/
def RunInTransaction {α : Type} (s : Store) (f : Store → Store × Except Error α) :
    Store × Except Error α :=
  match f s with
  | (s', .ok a) => (s', .ok a)
  | (_, .error e) => (s, .error e)

/-- Order of two characters lists by code point, the order of UTF-8 strings. -/
def ltChars : List Char → List Char → Bool
  | [], [] => false
  | [], _ :: _ => true
  | _ :: _, [] => false
  | a :: as, b :: bs => decide (a < b) || (a == b && ltChars as bs)

/-- Order of the ids of two keys of one kind and parent in a datastore index:
numeric ids before names, then by value. -/
def idLt (a b : ID) : Bool :=
  if a.intID ≠ 0 ∧ b.intID = 0 then true
  else if a.intID = 0 ∧ b.intID ≠ 0 then false
  else decide (a.intID < b.intID)
    || (a.intID == b.intID && ltChars a.stringID.data b.stringID.data)

/-- Row `a` stands before row `b` in the index of kind "Call" on `-Created`:
later `Created` first, equal `Created` in key order. -/
def before (a b : Sigma (fun _ : CallKey => Call)) : Bool :=
  decide (b.2.Created < a.2.Created)
    || (a.2.Created == b.2.Created && idLt a.1.id b.1.id)

/-- The query `NewQuery("Call").Ancestor(uk).Order("-Created").Limit(1)` of
`SkipNextCall`, run to its first result: the Call of user `n` that stands
before every other Call of `n` in the index; `Done` when `n` has no Call. -/
def latestCall (s : Store) (n : String) : Except Error (CallKey × Call) :=
  let uk := NewKey n 0
  if uk.Incomplete then .error .badRequest
  else
    let rows := s.calls.entries.filter (fun e => e.1.parent == uk)
    match rows.find? (fun e => rows.all (fun e' => e'.1 == e.1 || before e e')) with
    | none => .error .Done
    | some e => .ok (e.1, e.2)

/-! ## datastore.go -/

/-- Go `isNotUser`; `none` is the nil error. -/
def isNotUser (err : Option Error) : Bool := err == some .ErrNoSuchEntity

/-- The error of a result, `none` for nil. -/
def errorOf {α : Type} (r : Except Error α) : Option Error :=
  match r with
  | .ok _ => none
  | .error e => some e

/-- Go `GetUser`. -/
def GetUser (s : Store) (n : String) : Except Error User :=
  Get s.users (NewKey n 0)

/-- Go `InsertUser`, with `time.Now()` and the random draw of
`someTimeTomorrow` as inputs. -/
def InsertUser (s : Store) (n zip : String) (now : Int) (draw : Nat) :
    Store × Except Error User :=
  let k := NewKey n 0
  let u : User := { PhoneNumber := n, ZipCode := zip, NextCall := someTimeTomorrow now draw }
  match Put s.users k u with
  | .error e => (s, .error e)
  | .ok t => ({ s with users := t }, .ok u)

/-- Go `SetNextCall`. -/
def SetNextCall (s : Store) (n : String) (next : Int) : Store × Except Error User :=
  RunInTransaction s fun s =>
    let k := NewKey n 0
    match Get s.users k with
    | .error e => (s, .error e)
    | .ok u =>
      let u := { u with NextCall := next }
      match Put s.users k u with
      | .error e => (s, .error e)
      | .ok t => ({ s with users := t }, .ok u)

/-- Go `DeleteUser`: an error of `datastore.Delete` is only logged. -/
def DeleteUser (s : Store) (n : String) : Store :=
  let k := NewKey n 0
  match Delete s.users k with
  | .error _ => s
  | .ok t => { s with users := t }

def callKeyLength : Nat := 10

def alphabet : List Char :=
  "abcdefghijklmnopqrstuvwxyzABCDEFGHIJKLMNOPQRSTUVWXYZ1234567890".data

/-- Go `randomString`; `draws` are the successive results of `rand.Intn`'s
source, each reduced modulo `len(alphabet)`. -/
def randomString (draws : List Nat) : String :=
  String.mk ((List.range callKeyLength).map
    (fun i => alphabet.getD (draws.getD i 0 % alphabet.length) 'a'))

/-- Go `InsertCall`, with the draws of `randomString` and `time.Now()` as
inputs. -/
def InsertCall (s : Store) (from' to' : String) (draws : List Nat) (now : Int) :
    Store × Except Error Call :=
  let key := randomString draws
  let pk := NewKey from' 0
  let k : CallKey := ⟨pk, NewKey key 0⟩
  let c : Call :=
    { Key := key, To := to', From := from', Sid := "", Created := now, Duration := 0,
      Status := "new" }
  match PutCallKey s.calls k c with
  | .error e => (s, .error e)
  | .ok t => ({ s with calls := t }, .ok c)

/-- Go `GetCall`. -/
def GetCall (s : Store) (u : User) (key : String) : Except Error Call :=
  let uk := NewKey u.PhoneNumber 0
  let k : CallKey := ⟨uk, NewKey key 0⟩
  GetCallKey s.calls k

/-- Go `storeSIDLookup`: an error of `datastore.Put` is only logged. -/
def storeSIDLookup (s : Store) (sid user call : String) : Store :=
  let uk := NewKey user 0
  let ck : CallKey := ⟨uk, NewKey call 0⟩
  let luk := NewKey sid 0
  match Put s.sids luk ck with
  | .error _ => s
  | .ok t => { s with sids := t }

/-- Go `lookupBySID`: the call key of the SIDLookup, `none` (nil) when
`datastore.Get` fails. -/
def lookupBySID (s : Store) (sid : String) : Option CallKey :=
  let luk := NewKey sid 0
  match Get s.sids luk with
  | .error _ => none
  | .ok ck => some ck

/-- Go `UpdateCallBySID`. -/
def UpdateCallBySID (s : Store) (sid status : String) (dur : Int) :
    Store × Except Error Unit :=
  -- Lookup Call key for SID.
  match lookupBySID s sid with
  | none => (s, .error .sidLookupFailed)
  | some ck =>
    RunInTransaction s fun s =>
      match GetCallKey s.calls ck with
      | .error e => (s, .error e)
      | .ok c =>
        let c := { c with Status := status }
        let c := if dur ≠ 0 then { c with Duration := dur } else c
        match PutCallKey s.calls ck c with
        | .error e => (s, .error e)
        | .ok t => ({ s with calls := t }, .ok ())

/-- Go `SetSID`. -/
def SetSID (s : Store) (u : User) (callID sid : String) : Store × Except Error Unit :=
  -- Store the SIDLookup.
  let s := storeSIDLookup s sid u.PhoneNumber callID
  RunInTransaction s fun s =>
    let uk := NewKey u.PhoneNumber 0
    let k : CallKey := ⟨uk, NewKey callID 0⟩
    match GetCallKey s.calls k with
    | .error e => (s, .error e)
    | .ok c =>
      let c := { c with Sid := sid }
      match PutCallKey s.calls k c with
      | .error e => (s, .error e)
      | .ok t => ({ s with calls := t }, .ok ())

/-- Go `SkipNextCall`. -/
def SkipNextCall (s : Store) (n : String) : Store × Except Error Unit :=
  RunInTransaction s fun s =>
    match latestCall s n with
    | .error e => (s, .error e)
    | .ok (ck, c) =>
      if c.Status ≠ "new" then (s, .error .ErrNoSkippableCalls)
      else
        let c := { c with Status := "skipped" }
        match PutCallKey s.calls ck c with
        | .error e => (s, .error e)
        | .ok t => ({ s with calls := t }, .ok ())

/-! ## reps.go -/

structure Rep where
  Name : String
  PhoneNumber : String
  Party : String
  State : String
  District : String
  Link : String
deriving DecidableEq, Repr

/-- Go `Rep.Title`. -/
def Rep.Title (r : Rep) : String :=
  if Contains r.Link "senate.gov" then "Sen. "
  else if Contains r.Link "house.gov" then "Rep. "
  else ""

/-- Go `Rep.String`. -/
def Rep.String (r : Rep) : String :=
  r.Title ++ r.Name ++ " (" ++ r.Party ++ ")"

/-! ## twilio.go -/

/-- The verbs of a TwiML response document. -/
inductive Verb where
  | Say (Text Voice Language : String)
  | SMS (Text : String)
  | Dial (Number StatusCallback StatusCallbackEvent : String)
deriving DecidableEq, Repr

def host : String := "https://make-me-call.appspot.com"

def testNumber : String := "8887018992"

/-- Go `NewSay`. -/
def NewSay (s : String) : Verb := .Say s "female" "en-gb"

/-- Go `NewDial`. -/
def NewDial (n : String) : Verb :=
  .Dial n (host ++ "/callstatus") "initiated ringing answered completed"

/-- What a handler writes to its `http.ResponseWriter`: nothing, a plain text,
the text of an error (`err.Error()` and a newline), or the XML document of a
TwiML response with these verbs. -/
inductive Body where
  | empty
  | text (s : String)
  | error (e : Error)
  | xml (Verbs : List Verb)
deriving DecidableEq, Repr

structure HTTPResponse where
  code : Nat
  body : Body
deriving DecidableEq, Repr

/-- Go `http.Error(w, "", code)`. -/
def httpError (code : Nat) : HTTPResponse := ⟨code, .text "\n"⟩

/-- Go `respond`: status 200 and the marshalled document. -/
def respond (Verbs : List Verb) : HTTPResponse := ⟨200, .xml Verbs⟩

/-! ## main.go -/

/-- An incoming HTTP request: method, URL, the parsed form of the body, the
values of the URL query, and the header X-Twilio-Signature. -/
structure Request where
  Method : String
  URL : String
  PostForm : List (String × String)
  Query : List (String × String)
  Signature : String
deriving DecidableEq, Repr

/-- Go `Request.PostFormValue`: the first value of the body form for `key`, or
the empty string. -/
def Request.PostFormValue (r : Request) (key : String) : String :=
  (r.PostForm.lookup key).getD ""

/-- Go `Request.FormValue`: body parameters take precedence over URL query
values. -/
def Request.FormValue (r : Request) (key : String) : String :=
  ((r.PostForm ++ r.Query).lookup key).getD ""

/-- A task handed to the task queue by `delay.Func.Call` or `taskqueue.Add`. -/
inductive Task where
  | call (u : User) (force : Bool)
  | actualCall (u : User) (callID : String) (rep : Rep) (delaySeconds : Nat)
deriving DecidableEq, Repr

/-- The datastore together with the effects on the outside world: the calls
placed with the provider (`SendCall`: to, dial), the texts sent (`SendSMS`:
to, text) and the tasks enqueued. -/
structure World where
  store : Store
  placedCalls : List (String × String)
  sentSMS : List (String × String)
  tasks : List Task

/-- What one run of a handler or task reads from outside the program. -/
structure Env where
  /-- The value of `time.Now()`. -/
  now : Int
  /-- The draw of `rand.Int63n` in `someTimeTomorrow`. -/
  draw : Nat
  /-- The draw of `rand.Intn(len(reps))` in `call`. -/
  repDraw : Nat
  /-- The draws of `randomString`. -/
  keyDraws : List Nat
  /-- The answer of `LookupReps` for a zip code. -/
  LookupReps : String → List Rep
  /-- The Sid in the provider's answer to `SendCall(to, dial)`, empty when the
  request failed. -/
  providerSid : String → String → String
  /-- Go `strings.ToUpper`. -/
  ToUpper : String → String
  /-- Go `t.In(nytz).Format(timeFmt)`. -/
  Format : Int → String
  /-- Base64 of the HMAC-SHA1 of a message under the secret `tok`. -/
  sign : String → String

/-- Go `User.NextCallFormatted`. -/
def User.NextCallFormatted (env : Env) (u : User) : String := env.Format u.NextCall

/-- Go `validateHMAC`: computes the signature of the request and compares it
with the header; a mismatch is only logged, so the function returns nothing
to its caller.  The value here tells whether the warning is logged. -/
def validateHMAC (env : Env) (r : Request) : Bool :=
  let keys := ((r.PostForm.map Prod.fst).dedup).insertionSort (fun a b => ltChars a.data b.data || a == b)
  let msg := keys.foldl (fun msg k => msg ++ k ++ r.FormValue k) r.URL
  let got := env.sign msg
  let want := r.Signature
  got != want

/-- Go `SendSMS`. -/
def SendSMS (w : World) (to' text : String) : World :=
  { w with sentSMS := w.sentSMS ++ [(to', text)] }

/-- Go `SendCall`: places the call with the provider and returns the Sid of
its answer. -/
def SendCall (env : Env) (w : World) (to' dial : String) : World × String :=
  ({ w with placedCalls := w.placedCalls ++ [(to', dial)] }, env.providerSid to' dial)

def tips : String :=
  "Tips for calling:\n- Give your name, city, and zip code.\n- State an issue, state your opinion on it. That's it.\n- Be nice. The person you're talking to has a hard job.\n- Call every day so they remember you.\nText QUIT any time to stop."

/-- Go `defaultText`. -/
def defaultText (env : Env) (u : User) : String :=
  let msg := "Your zip code is " ++ u.ZipCode ++ "\nYour next call is scheduled for "
    ++ u.NextCallFormatted env ++ "\nYour members of congress:\n"
  -- Look up reps by zip.
  (env.LookupReps u.ZipCode).foldl (fun msg r => msg ++ "- " ++ r.String ++ "\n") msg

/-- Go `connect`. -/
def connect (env : Env) (w : World) (r : Request) : World × HTTPResponse :=
  if r.Method ≠ "POST" then (w, httpError 405)
  else
    let _ := validateHMAC env r
    let dial := r.FormValue "dial"
    let dial := if dial = "" then testNumber else dial
    (w, respond [NewSay "Hello, you are now being connected.", NewDial dial])

/-- Go `incomingCall`. -/
def incomingCall (env : Env) (w : World) (r : Request) : World × HTTPResponse :=
  if r.Method ≠ "POST" then (w, httpError 405)
  else
    let _ := validateHMAC env r
    (w, respond [NewSay
      "Hello, thank you for calling. Text JOIN and your zip code to this number to get started."])

/-- Go `call`, the function behind the delayed task "call". -/
def call (env : Env) (w : World) (u : User) (_force : Bool) : World :=
  let reps := env.LookupReps u.ZipCode
  if reps.length = 0 then w
  else
    match reps.get? (env.repDraw % reps.length) with
    | none => w
    | some rep =>
      -- Insert a Call with status "new".
      match InsertCall w.store u.PhoneNumber rep.PhoneNumber env.keyDraws env.now with
      | (s, .error _) => { w with store := s }
      | (s, .ok c) =>
        let w := { w with store := s }
        let w := SendSMS w u.PhoneNumber
          ("It's time for your call!\nYou will be calling " ++ rep.String
            ++ ".\nYour call will come in five minutes. Get ready!\nText TIPS to get some tips.\nText SKIP to reschedule.")
        { w with tasks := w.tasks ++ [Task.actualCall u c.Key rep (5 * 60)] }

/-- Go `doCall`, the function behind the delayed task "actual-call". -/
def doCall (env : Env) (w : World) (u : User) (callID : String) (rep : Rep) : World :=
  -- Check whether the call has been skipped.
  match GetCall w.store u callID with
  | .error _ => w
  | .ok c =>
    if c.Status = "skipped" then w
    else
      -- Send call and update associated SID.
      let (w, sid) := SendCall env w u.PhoneNumber rep.PhoneNumber
      let s := (SetSID w.store u c.Key sid).1
      -- Set next call for tomorrow.
      let s := (SetNextCall s u.PhoneNumber (someTimeTomorrow env.now env.draw)).1
      { w with store := s }

/-- Go `callStatus`. -/
def callStatus (env : Env) (w : World) (r : Request) : World × HTTPResponse :=
  if r.Method ≠ "POST" then (w, httpError 405)
  else
    let _ := validateHMAC env r
    let sid := r.FormValue "ParentCallSid"
    let status := r.FormValue "CallStatus"
    -- Parse duration.
    let dur := r.FormValue "CallDuration"
    let d : Int := if dur ≠ "" then wrap64 (Atoi dur * 1000000000) else 0
    let s := (UpdateCallBySID w.store sid status d).1
    ({ w with store := s }, ⟨200, .empty⟩)

/-- Go `incomingText`. -/
def incomingText (env : Env) (w : World) (r : Request) : World × HTTPResponse :=
  if r.Method ≠ "POST" then (w, httpError 405)
  else
    let _ := validateHMAC env r
    let from' := r.PostFormValue "From"
    let body := Trim (env.ToUpper (r.PostFormValue "Body"))
    match GetUser w.store from' with
    | .error err =>
      if isNotUser (some err) then
        if isJoin body then
          let zip := (Split body).getD 1 ""
          match InsertUser w.store from' zip env.now env.draw with
          | (s, .error err) => ({ w with store := s }, ⟨500, .error err⟩)
          | (s, .ok u) =>
            ({ w with store := s },
              respond [.SMS ("Thank you, you have joined!\nText QUIT any time to stop.\n"
                ++ defaultText env u)])
        else (w, respond [.SMS "Text \"JOIN <ZIPCODE>\" to get started."])
      else (w, ⟨500, .error err⟩)
    | .ok u =>
      -- User exists.
      if body = "TIPS" then (w, respond [.SMS tips])
      else if body = "NOW" then
        ({ w with tasks := w.tasks ++ [Task.call u true] }, respond [.SMS ""])
      else if body = "QUIT" ∨ body = "STOP" then
        ({ w with store := DeleteUser w.store from' },
          respond [.SMS "You quit. Text \"JOIN <ZIPCODE>\" at any time to get back in the fight."])
      else if body = "SKIP" then
        match SkipNextCall w.store from' with
        | (s, .error _) => ({ w with store := s }, respond [.SMS ""])
        | (s, .ok _) =>
          let next := someTimeTomorrow env.now env.draw
          match SetNextCall s from' next with
          | (s, .error _) => ({ w with store := s }, respond [.SMS ""])
          | (s, .ok u) =>
            ({ w with store := s },
              respond [.SMS ("Your next call is " ++ u.NextCallFormatted env)])
      else (w, respond [.SMS (defaultText env u)])

/-! ## Concrete inputs -/

/-- Upper-cases the ASCII letters of a string, as `strings.ToUpper` does on an
ASCII string. -/
def asciiUpper (s : String) : String :=
  String.mk (s.data.map (fun c =>
    if 97 ≤ c.toNat ∧ c.toNat ≤ 122 then Char.ofNat (c.toNat - 32) else c))

/-- An environment: Wednesday 1 November 2017, 17:20 in New York, no
representatives found, a provider that answers every call with one Sid. -/
def env0 : Env where
  now := 1509571200
  draw := 4242
  repDraw := 0
  keyDraws := [0, 1, 2, 3, 4, 5, 6, 7, 8, 9]
  LookupReps := fun _ => []
  providerSid := fun _ _ => "CA0123"
  ToUpper := asciiUpper
  Format := fun _ => ""
  sign := fun _ => ""

def userPhone : String := "8675309"

/-- A store with two Calls of `userPhone`, the later one new, and a Call of
another user. -/
def store0 : Store where
  users := (AList.insert (NewKey userPhone 0) ⟨userPhone, "12345", 1509600000⟩ ∅)
  calls :=
    AList.insert ⟨NewKey userPhone 0, NewKey "bbbbbbbbbb" 0⟩
      ⟨"bbbbbbbbbb", "2025550101", userPhone, "", 200, 0, "new"⟩
    (AList.insert ⟨NewKey userPhone 0, NewKey "aaaaaaaaaa" 0⟩
      ⟨"aaaaaaaaaa", "2025550102", userPhone, "CA1", 100, 60000000000, "completed"⟩
    (AList.insert ⟨NewKey "5551234" 0, NewKey "cccccccccc" 0⟩
      ⟨"cccccccccc", "2025550103", "5551234", "", 300, 0, "skipped"⟩ ∅))
  sids := (AList.insert (NewKey "CA1" 0) ⟨NewKey userPhone 0, NewKey "aaaaaaaaaa" 0⟩ ∅)

def world0 : World := ⟨store0, [], [], []⟩

/-- The key and the value of the latest Call of `userPhone` in `store0`. -/
def latestKey0 : CallKey := ⟨NewKey userPhone 0, NewKey "bbbbbbbbbb" 0⟩

def latestCall0 : Call := ⟨"bbbbbbbbbb", "2025550101", userPhone, "", 200, 0, "new"⟩

/-- A store whose only Call is the completed one of `userPhone`. -/
def store1 : Store where
  users := (AList.insert (NewKey userPhone 0) ⟨userPhone, "12345", 1509600000⟩ ∅)
  calls :=
    (AList.insert ⟨NewKey userPhone 0, NewKey "aaaaaaaaaa" 0⟩
      ⟨"aaaaaaaaaa", "2025550102", userPhone, "CA1", 100, 60000000000, "completed"⟩ ∅)
  sids := (AList.insert (NewKey "CA1" 0) ⟨NewKey userPhone 0, NewKey "aaaaaaaaaa" 0⟩ ∅)

/-- The user whose Call in `store0` is skipped, and a representative. -/
def user1 : User := ⟨"5551234", "20500", 1509600000⟩

def rep0 : Rep := ⟨"Jane Doe", "2025550103", "I", "DC", "", "https://www.senate.gov/doe"⟩

/-- The Call that `InsertCall` creates from the draws of `env0`. -/
def newCall0 : Call := ⟨"abcdefghij", "2025550199", userPhone, "", 400, 0, "new"⟩

/-- A status callback for a session id without SIDLookup. -/
def unknownStatus : Request :=
  ⟨"POST", "/callstatus",
    [("ParentCallSid", "CA9999"), ("CallStatus", "completed"), ("CallDuration", "42")], [], ""⟩

/-- Texts from a number without User and from `userPhone`. -/
def joinText : Request :=
  ⟨"POST", "/incomingtext", [("From", "5550000"), ("Body", " join 12345 ")], [], ""⟩

def quitText : Request :=
  ⟨"POST", "/incomingtext", [("From", userPhone), ("Body", "quit")], [], ""⟩

/-- A text from a number without User whose body holds a JOIN command after
another word. -/
def pleaseJoin : Request :=
  ⟨"POST", "/incomingtext", [("From", "5550000"), ("Body", "please join 12345")], [], ""⟩

/-- A text SKIP from `userPhone`. -/
def skipText : Request :=
  ⟨"POST", "/incomingtext", [("From", userPhone), ("Body", "skip")], [], ""⟩

/-! ## Calendar lemmas -/

/-- Decomposition of an absolute day number into cycle counts, as `absYear`
computes them. -/
theorem absYear_cycles (d : Int) :
    ∃ q c f e yd : Int, absYear d = (400 * q + 100 * c + 4 * f + e, yd) ∧
      d = 146097 * q + 36524 * c + 1461 * f + 365 * e + yd ∧
      0 ≤ c ∧ c ≤ 3 ∧ 0 ≤ f ∧ f ≤ 24 ∧ 0 ≤ e ∧ e ≤ 3 ∧ 0 ≤ yd ∧ yd ≤ 365 ∧
      (yd = 365 → e = 3 ∧ (f = 24 → c = 3)) := by
  obtain ⟨q, hq⟩ : ∃ q, q = d / 146097 := ⟨_, rfl⟩
  obtain ⟨d1, hd1⟩ : ∃ d1, d1 = d - 146097 * q := ⟨_, rfl⟩
  obtain ⟨n, hn⟩ : ∃ n, n = d1 / 36524 := ⟨_, rfl⟩
  obtain ⟨c, hc⟩ : ∃ c, c = n - n / 4 := ⟨_, rfl⟩
  obtain ⟨d2, hd2⟩ : ∃ d2, d2 = d1 - 36524 * c := ⟨_, rfl⟩
  obtain ⟨f, hf⟩ : ∃ f, f = d2 / 1461 := ⟨_, rfl⟩
  obtain ⟨d3, hd3⟩ : ∃ d3, d3 = d2 - 1461 * f := ⟨_, rfl⟩
  obtain ⟨m, hm⟩ : ∃ m, m = d3 / 365 := ⟨_, rfl⟩
  obtain ⟨e, he⟩ : ∃ e, e = m - m / 4 := ⟨_, rfl⟩
  refine ⟨q, c, f, e, d3 - 365 * e, ?_, ?_⟩
  · simp only [absYear, ← hq, ← hd1, ← hn, ← hc, ← hd2, ← hf, ← hd3, ← hm, ← he]
  · have b1 : 0 ≤ d1 ∧ d1 < 146097 := by omega
    have bn : 0 ≤ n ∧ n ≤ 4 := by omega
    have bc : 0 ≤ c ∧ c ≤ 3 ∧ (n ≤ 3 → c = n) ∧ (n = 4 → c = 3) := by omega
    have b2 : 0 ≤ d2 ∧ d2 ≤ 36524 ∧ (d2 = 36524 → c = 3) := by omega
    have bf : 0 ≤ f ∧ f ≤ 24 := by omega
    have b3 : 0 ≤ d3 ∧ d3 < 1461 ∧ (f = 24 → 1460 ≤ d3 → c = 3) := by omega
    have bm : 0 ≤ m ∧ m ≤ 4 := by omega
    have be : 0 ≤ e ∧ e ≤ 3 ∧ (m ≤ 3 → e = m) ∧ (m = 4 → e = 3) := by omega
    refine ⟨by omega, bc.1, bc.2.1, bf.1, bf.2, be.1, be.2.1, by omega, by omega, ?_⟩
    intro h
    omega

theorem yearDays_cycles (q c f e : Int) (hc : 0 ≤ c ∧ c ≤ 3) (hf : 0 ≤ f ∧ f ≤ 24)
    (he : 0 ≤ e ∧ e ≤ 3) :
    yearDays (400 * q + 100 * c + 4 * f + e) = 146097 * q + 36524 * c + 1461 * f + 365 * e := by
  have h1 : (400 * q + 100 * c + 4 * f + e) / 400 = q := by omega
  have h2 : (100 * c + 4 * f + e) / 100 = c := by omega
  have h3 : (4 * f + e) / 4 = f := by omega
  have e1 : 400 * q + 100 * c + 4 * f + e - 400 * q = 100 * c + 4 * f + e := by ring
  have e2 : 100 * c + 4 * f + e - 100 * c = 4 * f + e := by ring
  simp only [yearDays, h1, e1, h2, e2, h3]
  ring

theorem isLeap_cycles (q c f e : Int) (hc : 0 ≤ c ∧ c ≤ 3) (hf : 0 ≤ f ∧ f ≤ 24)
    (he : 0 ≤ e ∧ e ≤ 3) :
    isLeap (400 * q + 100 * c + 4 * f + e + absoluteZeroYear) = true ↔
      (e = 3 ∧ (f = 24 → c = 3)) := by
  simp only [isLeap, absoluteZeroYear, Bool.and_eq_true, Bool.or_eq_true, beq_iff_eq,
    bne_iff_ne, ne_eq]
  omega

theorem absYear_spec (d : Int) :
    yearDays (absYear d).1 + (absYear d).2 = d ∧ 0 ≤ (absYear d).2 ∧
      (absYear d).2 < (if isLeap ((absYear d).1 + absoluteZeroYear) then 366 else 365) := by
  obtain ⟨q, c, f, e, yd, h, hd, hc0, hc3, hf0, hf24, he0, he3, hy0, hy, hl⟩ := absYear_cycles d
  have hleap := isLeap_cycles q c f e ⟨hc0, hc3⟩ ⟨hf0, hf24⟩ ⟨he0, he3⟩
  rw [h]
  simp only
  rw [yearDays_cycles q c f e ⟨hc0, hc3⟩ ⟨hf0, hf24⟩ ⟨he0, he3⟩]
  refine ⟨by omega, hy0, ?_⟩
  split
  · omega
  · rename_i hn
    have : ¬ (e = 3 ∧ (f = 24 → c = 3)) := fun h => hn (hleap.mpr h)
    by_contra hlt
    exact this (hl (by omega))

theorem monthDay_spec (leap : Bool) (yd : Int) (h0 : 0 ≤ yd)
    (h1 : yd < (if leap then 366 else 365)) :
    1 ≤ (monthDay leap yd).1 ∧ (monthDay leap yd).1 ≤ 12 ∧
      daysBefore ((monthDay leap yd).1 - 1)
        + (if leap && decide ((monthDay leap yd).1 ≥ 3) then 1 else 0)
        + ((monthDay leap yd).2 - 1) = yd ∧
      1 ≤ (monthDay leap yd).2 ∧ (monthDay leap yd).2 ≤ 31 := by
  cases leap
  · simp only [Bool.false_eq_true, if_false] at h1
    interval_cases yd <;> decide
  · simp only [if_true] at h1
    interval_cases yd <;> decide

theorem norm_of_range (hi lo base : Int) (h0 : 0 ≤ lo) (h1 : lo < base) :
    norm hi lo base = (hi, lo) := by
  have a : ¬ lo < 0 := by omega
  have b : ¬ lo ≥ base := by omega
  simp only [norm, if_neg a, if_neg b]

theorem dateDays_eq (year month day : Int) (h1 : 1 ≤ month) (h12 : month ≤ 12) :
    dateDays year month day = yearDays (year - absoluteZeroYear) + daysBefore (month - 1)
      + (if isLeap year && decide (month ≥ 3) then 1 else 0) + (day - 1) := by
  have hn : norm year (month - 1) 12 = (year, month - 1) :=
    norm_of_range _ _ _ (by omega) (by omega)
  simp only [dateDays, hn, yearDays, sub_add_cancel]
  split <;> ring

/-- The calendar fields computed by `absDate` identify the absolute day:
feeding them back to `dateDays`, with the day shifted by `k`, gives the
absolute day shifted by `k`. -/
theorem dateDays_absDate (d k : Int) :
    dateDays ((absYear d).1 + absoluteZeroYear)
      (monthDay (isLeap ((absYear d).1 + absoluteZeroYear)) (absYear d).2).1
      ((monthDay (isLeap ((absYear d).1 + absoluteZeroYear)) (absYear d).2).2 + k) = d + k := by
  obtain ⟨hd, h0, h1⟩ := absYear_spec d
  obtain ⟨m1, m12, hm, -⟩ := monthDay_spec (isLeap ((absYear d).1 + absoluteZeroYear))
    (absYear d).2 h0 (by simpa using h1)
  rw [dateDays_eq _ _ _ m1 m12, add_sub_cancel_right]
  omega

theorem yearDays_closed (y : Int) : yearDays y = 365 * y + y / 4 - y / 100 + y / 400 := by
  obtain ⟨q, hq⟩ : ∃ q, q = y / 400 := ⟨_, rfl⟩
  obtain ⟨r, hr⟩ : ∃ r, r = y - 400 * q := ⟨_, rfl⟩
  obtain ⟨c, hc⟩ : ∃ c, c = r / 100 := ⟨_, rfl⟩
  obtain ⟨r2, hr2⟩ : ∃ r2, r2 = r - 100 * c := ⟨_, rfl⟩
  obtain ⟨f, hf⟩ : ∃ f, f = r2 / 4 := ⟨_, rfl⟩
  simp only [yearDays, ← hq, ← hr, ← hc, ← hr2, ← hf]
  have h100 : y / 100 = 4 * q + c := by omega
  have h4 : y / 4 = 100 * q + 25 * c + f := by omega
  omega

theorem yearDays_succ (y : Int) : yearDays y + 365 ≤ yearDays (y + 1) := by
  rw [yearDays_closed, yearDays_closed]
  omega

theorem sundayOnOrAfter_bounds (year month day : Int) :
    dateDays year month day ≤ sundayOnOrAfter year month day ∧
      sundayOnOrAfter year month day ≤ dateDays year month day + 6 := by
  simp only [sundayOnOrAfter]
  omega

/-- The zone found for 12:00 UTC of an absolute day `D` is also the zone in
force at New York noon of that day and during the five hours after it. -/
theorem lookup_noon (D : Int) :
    ((lookup (D * 86400 + 43200 - unixToAbsolute)).offset = -18000 ∨
        (lookup (D * 86400 + 43200 - unixToAbsolute)).offset = -14400) ∧
      (lookup (D * 86400 + 43200 - unixToAbsolute)).start
        ≤ D * 86400 + 43200 - unixToAbsolute
          - (lookup (D * 86400 + 43200 - unixToAbsolute)).offset ∧
      D * 86400 + 43200 - unixToAbsolute - (lookup (D * 86400 + 43200 - unixToAbsolute)).offset
        < (lookup (D * 86400 + 43200 - unixToAbsolute)).stop ∧
      ∀ r : Int, 0 ≤ r → r < 18000 →
        (lookup (D * 86400 + 43200 - unixToAbsolute
          - (lookup (D * 86400 + 43200 - unixToAbsolute)).offset + r)).offset
          = (lookup (D * 86400 + 43200 - unixToAbsolute)).offset := by
  obtain ⟨hd, h0, h1⟩ := absYear_spec D
  have h365 : (absYear D).2 ≤ 365 := by split at h1 <;> omega
  obtain ⟨Y, hY⟩ : ∃ Y, Y = (absYear D).1 + absoluteZeroYear := ⟨_, rfl⟩
  have hy : (absYear D).1 = Y - absoluteZeroYear := by omega
  rw [hy] at hd
  have hprev := yearDays_succ (Y - 1 - absoluteZeroYear)
  have hnext := yearDays_succ (Y - absoluteZeroYear)
  have e1 : Y - 1 - absoluteZeroYear + 1 = Y - absoluteZeroYear := by ring
  have e2 : Y - absoluteZeroYear + 1 = Y + 1 - absoluteZeroYear := by ring
  rw [e1] at hprev
  rw [e2] at hnext
  have hs := sundayOnOrAfter_bounds Y 3 8
  have hsn := sundayOnOrAfter_bounds (Y + 1) 3 8
  have hep := sundayOnOrAfter_bounds (Y - 1) 11 1
  rw [dateDays_eq _ _ _ (by norm_num) (by norm_num)] at hs hsn hep
  have db2 : daysBefore (3 - 1) = 59 := by decide
  have db10 : daysBefore (11 - 1) = 304 := by decide
  rw [db2] at hs hsn
  rw [db10] at hep
  have l1 : ∀ b : Bool, (0 : Int) ≤ (if b then 1 else 0) ∧ (if b then 1 else 0) ≤ (1 : Int) := by
    intro b; cases b <;> simp
  have la := l1 (isLeap Y && decide ((3 : Int) ≥ 3))
  have lb := l1 (isLeap (Y + 1) && decide ((3 : Int) ≥ 3))
  have lc := l1 (isLeap (Y - 1) && decide ((11 : Int) ≥ 3))
  have hyr : ∀ s : Int, 0 ≤ s → s < 86400 →
      (absYear ((D * 86400 + s - unixToAbsolute + unixToAbsolute) / 86400)).1
        + absoluteZeroYear = Y := by
    intro s s0 s1
    have : (D * 86400 + s - unixToAbsolute + unixToAbsolute) / 86400 = D := by omega
    rw [this, hY]
  have hlk : ∀ s : Int, 0 ≤ s → s < 86400 → lookup (D * 86400 + s - unixToAbsolute) =
      if D * 86400 + s - unixToAbsolute < dstStart Y then ⟨-18000, dstEnd (Y - 1), dstStart Y⟩
      else if D * 86400 + s - unixToAbsolute < dstEnd Y then ⟨-14400, dstStart Y, dstEnd Y⟩
      else ⟨-18000, dstEnd Y, dstStart (Y + 1)⟩ := by
    intro s s0 s1
    simp only [lookup, hyr s s0 s1]
  have hS : dstStart Y = sundayOnOrAfter Y 3 8 * 86400 + 7 * 3600 - unixToAbsolute := rfl
  have hSn : dstStart (Y + 1)
      = sundayOnOrAfter (Y + 1) 3 8 * 86400 + 7 * 3600 - unixToAbsolute := rfl
  have hE : dstEnd Y = sundayOnOrAfter Y 11 1 * 86400 + 6 * 3600 - unixToAbsolute := rfl
  have hEp : dstEnd (Y - 1)
      = sundayOnOrAfter (Y - 1) 11 1 * 86400 + 6 * 3600 - unixToAbsolute := rfl
  have hg := hlk 43200 (by norm_num) (by norm_num)
  by_cases c1 : D * 86400 + 43200 - unixToAbsolute < dstStart Y
  · rw [if_pos c1] at hg
    rw [hg]
    refine ⟨Or.inl rfl, by simp only; omega, by simp only; omega, ?_⟩
    intro r r0 r1
    have e : D * 86400 + 43200 - unixToAbsolute - (-18000 : Int) + r
        = D * 86400 + (61200 + r) - unixToAbsolute := by ring
    simp only
    rw [e, hlk (61200 + r) (by omega) (by omega), if_pos (by omega)]
  · rw [if_neg c1] at hg
    by_cases c2 : D * 86400 + 43200 - unixToAbsolute < dstEnd Y
    · rw [if_pos c2] at hg
      rw [hg]
      refine ⟨Or.inr rfl, by simp only; omega, by simp only; omega, ?_⟩
      intro r r0 r1
      have e : D * 86400 + 43200 - unixToAbsolute - (-14400 : Int) + r
          = D * 86400 + (57600 + r) - unixToAbsolute := by ring
      simp only
      rw [e, hlk (57600 + r) (by omega) (by omega), if_neg (by omega), if_pos (by omega)]
    · rw [if_neg c2] at hg
      rw [hg]
      refine ⟨Or.inl rfl, by simp only; omega, by simp only; omega, ?_⟩
      intro r r0 r1
      have e : D * 86400 + 43200 - unixToAbsolute - (-18000 : Int) + r
          = D * 86400 + (61200 + r) - unixToAbsolute := by ring
      simp only
      rw [e, hlk (61200 + r) (by omega) (by omega), if_neg (by omega), if_neg (by omega)]

theorem Date_noon (year month day : Int) :
    Date year month day 12 0 0 = dateDays year month day * 86400 + 43200 - unixToAbsolute
      - (lookup (dateDays year month day * 86400 + 43200 - unixToAbsolute)).offset := by
  have n1 : norm 0 0 60 = (0, 0) := norm_of_range _ _ _ (by norm_num) (by norm_num)
  have n2 : norm 12 0 60 = (12, 0) := norm_of_range _ _ _ (by norm_num) (by norm_num)
  have n3 : norm day 12 24 = (day, 12) := norm_of_range _ _ _ (by norm_num) (by norm_num)
  unfold Date
  rw [n1]
  simp only
  rw [n2]
  simp only
  rw [n3]
  simp only
  generalize dateDays year month day = D
  have e : D * 86400 + (12 * 3600 + 0 * 60 + 0) = D * 86400 + 43200 := by norm_num
  rw [e]
  obtain ⟨ho, hs, he, -⟩ := lookup_noon D
  generalize lookup (D * 86400 + 43200 - unixToAbsolute) = z at *
  have h0 : z.offset ≠ 0 := by omega
  have h1 : ¬ D * 86400 + 43200 - unixToAbsolute - z.offset < z.start := by omega
  have h2 : ¬ D * 86400 + 43200 - unixToAbsolute - z.offset ≥ z.stop := by omega
  rw [if_pos h0, if_neg h1, if_neg h2]

theorem noonTomorrow_eq (now : Int) :
    noonTomorrow now = (localDay now + addDays now) * 86400 + 43200 - unixToAbsolute
      - (lookup ((localDay now + addDays now) * 86400 + 43200 - unixToAbsolute)).offset := by
  have h := dateDays_absDate (localDay now) (addDays now)
  simp only [noonTomorrow, Date_noon, Year, Month, Day, h]

/-- New York wall clock of the result of `someTimeTomorrow`: noon of the target
day plus the reduced draw. -/
theorem abs_someTimeTomorrow (now : Int) (draw : Nat) :
    abs (someTimeTomorrow now draw)
      = (localDay now + addDays now) * 86400 + 43200 + ((draw % 18000 : Nat) : Int) := by
  obtain ⟨-, -, -, hr⟩ := lookup_noon (localDay now + addDays now)
  have hlt : ((draw % 18000 : Nat) : Int) < 18000 := by omega
  have h := hr ((draw % 18000 : Nat) : Int) (by omega) hlt
  simp only [abs, someTimeTomorrow, Int63n, noonTomorrow_eq, h]
  ring

theorem addDays_eq (now : Int) :
    addDays now = if Weekday now = Friday then 3 else if Weekday now = Saturday then 2 else 1 :=
  rfl

/-- The calendar fields of an instant and its local day number determine each
other: `time.Date` maps the year, month and day of `t` back to the day number
of `t`, and the month and the day lie in their calendar ranges. -/
theorem dateDays_fields (t : Int) :
    dateDays (Year t) (Month t) (Day t) = localDay t ∧
      1 ≤ Month t ∧ Month t ≤ 12 ∧ 1 ≤ Day t ∧ Day t ≤ 31 := by
  have h := dateDays_absDate (localDay t) 0
  simp only [add_zero] at h
  obtain ⟨-, h0, h1⟩ := absYear_spec (localDay t)
  obtain ⟨m1, m12, -, d1, d31⟩ := monthDay_spec
    (isLeap ((absYear (localDay t)).1 + absoluteZeroYear)) (absYear (localDay t)).2 h0
    (by simpa using h1)
  exact ⟨h, m1, m12, d1, d31⟩

/-- Go `Time.Weekday` returns a day from Sunday (0) to Saturday (6). -/
theorem Weekday_range (t : Int) : 0 ≤ Weekday t ∧ Weekday t ≤ 6 := by
  simp only [Weekday]
  omega

/-- The New York date of the result of `someTimeTomorrow` lies `addDays` days
after the date of `now`. -/
theorem localDay_someTimeTomorrow (now : Int) (draw : Nat) :
    localDay (someTimeTomorrow now draw) = localDay now + addDays now := by
  have h := abs_someTimeTomorrow now draw
  simp only [localDay, h]
  omega

/-- C1: the New York calendar date of the instant returned by
`someTimeTomorrow` is 3 days after the date of `now` when `now` falls on a
Friday, 2 days after when it falls on a Saturday and 1 day after otherwise
(day numbers are consecutive across month and year ends), and the returned
date is never a Sunday. -/
theorem someTimeTomorrow_calendar_day (now : Int) (draw : Nat) :
    localDay (someTimeTomorrow now draw)
        = localDay now
          + (if Weekday now = Friday then 3 else if Weekday now = Saturday then 2 else 1) ∧
      Weekday (someTimeTomorrow now draw) ≠ Sunday := by
  have h := abs_someTimeTomorrow now draw
  have hlt : ((draw % 18000 : Nat) : Int) < 18000 := by omega
  have hk := addDays_eq now
  by_cases hF : Weekday now = Friday
  · rw [if_pos hF] at hk ⊢
    simp only [localDay, Weekday, Friday, Sunday] at *
    rw [h, hk]
    omega
  · rw [if_neg hF] at hk ⊢
    by_cases hS : Weekday now = Saturday
    · rw [if_pos hS] at hk ⊢
      simp only [localDay, Weekday, Saturday, Sunday] at *
      rw [h, hk]
      omega
    · rw [if_neg hS] at hk ⊢
      simp only [localDay, Weekday, Friday, Saturday, Sunday] at *
      rw [h, hk]
      omega

/-- C10: `someTimeTomorrow` returns `noonTomorrow`, which reads 12:00:00 on the
New York wall clock of the target day, plus a whole number of seconds that is
at least 0 and less than 18000 (5 hours). -/
theorem someTimeTomorrow_noon_offset (now : Int) (draw : Nat) :
    localDay (noonTomorrow now) = localDay now + addDays now ∧
      localSecondOfDay (noonTomorrow now) = 12 * 3600 ∧
      ∃ r : Nat, r < 18000 ∧ someTimeTomorrow now draw = noonTomorrow now + (r : Int) := by
  have h := abs_someTimeTomorrow now 0
  have e : someTimeTomorrow now 0 = noonTomorrow now := by
    simp [someTimeTomorrow, Int63n]
  rw [e] at h
  refine ⟨?_, ?_, draw % 18000, Nat.mod_lt _ (by norm_num), rfl⟩
  · simp only [localDay, h]
    omega
  · simp only [localSecondOfDay, h]
    omega

/-! ## Datastore lemmas -/

theorem RunInTransaction_ok {α : Type} (s s' : Store) (a : α)
    (f : Store → Store × Except Error α) (h : f s = (s', .ok a)) :
    RunInTransaction s f = (s', .ok a) := by
  simp [RunInTransaction, h]

theorem RunInTransaction_error {α : Type} (s s' : Store) (e : Error)
    (f : Store → Store × Except Error α) (h : f s = (s', .error e)) :
    RunInTransaction s f = (s, .error e) := by
  simp [RunInTransaction, h]

/-- What a result of `latestCall` says about the stored rows. -/
theorem latestCall_ok {s : Store} {n : String} {ck : CallKey} {c : Call}
    (h : latestCall s n = .ok (ck, c)) :
    (NewKey n 0).Incomplete = false ∧ Sigma.mk ck c ∈ s.calls.entries ∧
      ck.parent = NewKey n 0 ∧
      ∀ e ∈ s.calls.entries, e.1.parent = NewKey n 0 →
        e.1 = ck ∨ before ⟨ck, c⟩ e = true := by
  unfold latestCall at h
  simp only at h
  split at h
  · exact absurd h (by simp)
  · rename_i hinc
    split at h
    · exact absurd h (by simp)
    · rename_i e hfind
      have hp := List.find?_some hfind
      have hm := List.mem_of_find?_eq_some hfind
      simp only [Except.ok.injEq, Prod.mk.injEq] at h
      obtain ⟨h1, h2⟩ := h
      have he : e = ⟨ck, c⟩ := by
        cases e
        simp only at h1 h2
        subst h1 h2
        rfl
      subst he
      rw [List.mem_filter] at hm
      simp only [beq_iff_eq] at hm
      refine ⟨by simpa using hinc, hm.1, hm.2, ?_⟩
      intro e' he' hpar
      rw [List.all_eq_true] at hp
      have := hp e' (by rw [List.mem_filter]; exact ⟨he', by simpa using hpar⟩)
      simpa using this

theorem before_congr (k : CallKey) (c c' : Call) (e : Sigma (fun _ : CallKey => Call))
    (h : c'.Created = c.Created) : before ⟨k, c'⟩ e = before ⟨k, c⟩ e := by
  simp only [before, h]

/-- Overwriting the latest Call of `n` without touching `Created` leaves it the
latest. -/
theorem latestCall_insert {s : Store} {n : String} {ck : CallKey} {c : Call}
    (h : latestCall s n = .ok (ck, c)) (c' : Call) (hc : c'.Created = c.Created) :
    latestCall { s with calls := s.calls.insert ck c' } n = .ok (ck, c') := by
  obtain ⟨hinc, -, hpar, hall⟩ := latestCall_ok h
  unfold latestCall
  simp only [hinc, Bool.false_eq_true, if_false, AList.insert_entries]
  have hhead : ((Sigma.mk ck c' :: List.kerase ck s.calls.entries).filter
      (fun e => e.1.parent == NewKey n 0))
      = Sigma.mk ck c' :: (List.kerase ck s.calls.entries).filter
          (fun e => e.1.parent == NewKey n 0) := by
    rw [List.filter_cons_of_pos]
    simpa using hpar
  rw [hhead, List.find?_cons_of_pos]
  rw [List.all_eq_true]
  intro e he
  rcases List.mem_cons.mp he with rfl | he
  · simp
  · rw [List.mem_filter] at he
    have hmem : e ∈ s.calls.entries := (List.kerase_sublist ck s.calls.entries).subset he.1
    have hne : e.1 ≠ ck := by
      intro heq
      have hk : e.1 ∈ (List.kerase ck s.calls.entries).keys := List.mem_keys_of_mem he.1
      rw [heq] at hk
      exact List.not_mem_keys_kerase ck s.calls.nodupKeys hk
    rcases hall e hmem (by simpa using he.2) with h1 | h1
    · exact absurd h1 hne
    · rw [before_congr ck c c' e hc, h1]
      simp


theorem wellFormed_key {s : Store} (hwf : s.wellFormed = true) {ck : CallKey} {c : Call}
    (hm : Sigma.mk ck c ∈ s.calls.entries) : ck.valid = true ∧ ck.id.Incomplete = false := by
  simp only [Store.wellFormed, List.all_eq_true] at hwf
  have hk : ck ∈ s.calls.keys := List.mem_keys_of_mem hm
  simpa using hwf ck hk

theorem PutCallKey_complete (t : AList (fun _ : CallKey => Call)) (k : CallKey) (c : Call)
    (hv : k.valid = true) (hi : k.id.Incomplete = false) :
    PutCallKey t k c = .ok (t.insert k c) := by
  simp [PutCallKey, hv, hi]

theorem GetCallKey_complete (t : AList (fun _ : CallKey => Call)) (k : CallKey) (c : Call)
    (hv : k.valid = true) (hi : k.id.Incomplete = false) (hl : t.lookup k = some c) :
    GetCallKey t k = .ok c := by
  simp [GetCallKey, hv, hi, hl]

/-- The first run of `SkipNextCall` on a store whose latest Call of `n` is new. -/
theorem SkipNextCall_new {s : Store} {n : String} {ck : CallKey} {c : Call}
    (hwf : s.wellFormed = true) (hq : latestCall s n = .ok (ck, c)) (hnew : c.Status = "new") :
    SkipNextCall s n
      = ({ s with calls := s.calls.insert ck { c with Status := "skipped" } }, .ok ()) := by
  obtain ⟨-, hmem, -, -⟩ := latestCall_ok hq
  obtain ⟨hv, hi⟩ := wellFormed_key hwf hmem
  unfold SkipNextCall
  apply RunInTransaction_ok
  simp only [hq, hnew, ne_eq, not_true_eq_false, if_false, PutCallKey_complete _ _ _ hv hi]

/-- A run of `SkipNextCall` on a store whose latest Call of `n` is not new. -/
theorem SkipNextCall_not_new {s : Store} {n : String} {ck : CallKey} {c : Call}
    (hq : latestCall s n = .ok (ck, c)) (hnew : c.Status ≠ "new") :
    SkipNextCall s n = (s, .error .ErrNoSkippableCalls) := by
  unfold SkipNextCall
  apply RunInTransaction_error s s
  simp only [hq, hnew, ne_eq, not_false_eq_true, if_true]

/-- C2: in a store that keeps the datastore's invariant on Call keys, when the
most recently created Call of user `n` (the result of the query of
`SkipNextCall`) has status "new", `SkipNextCall n` returns no error and leaves
that Call stored with status "skipped"; run again on the resulting store,
`SkipNextCall n` returns `ErrNoSkippableCalls`. -/
theorem SkipNextCall_then_again (s : Store) (n : String) (ck : CallKey) (c : Call)
    (hwf : s.wellFormed = true) (hq : latestCall s n = .ok (ck, c)) (hnew : c.Status = "new") :
    (SkipNextCall s n).2 = .ok () ∧
      GetCallKey (SkipNextCall s n).1.calls ck = .ok { c with Status := "skipped" } ∧
      (SkipNextCall (SkipNextCall s n).1 n).2 = .error .ErrNoSkippableCalls := by
  obtain ⟨-, hmem, -, -⟩ := latestCall_ok hq
  obtain ⟨hv, hi⟩ := wellFormed_key hwf hmem
  rw [SkipNextCall_new hwf hq hnew]
  refine ⟨rfl, ?_, ?_⟩
  · exact GetCallKey_complete _ _ _ hv hi (AList.lookup_insert _)
  · have h2 := latestCall_insert hq { c with Status := "skipped" } rfl
    rw [SkipNextCall_not_new h2 (by simp)]

/-- C3: when the most recently created Call of user `n` has a status other than
"new", `SkipNextCall n` returns `ErrNoSkippableCalls` and the store is the one
before the call; when it is "new" (in a store that keeps the datastore's
invariant on Call keys), the resulting store holds the same User and SIDLookup
entities, the same Call under every other key, and under the key of that
latest Call the same Call with only `Status` replaced. -/
theorem SkipNextCall_frame (s : Store) (n : String) (ck : CallKey) (c : Call)
    (hq : latestCall s n = .ok (ck, c)) :
    (c.Status ≠ "new" → SkipNextCall s n = (s, .error .ErrNoSkippableCalls)) ∧
      (c.Status = "new" → s.wellFormed = true →
        (SkipNextCall s n).1.users = s.users ∧ (SkipNextCall s n).1.sids = s.sids ∧
        (SkipNextCall s n).1.calls.lookup ck
          = some ⟨c.Key, c.To, c.From, c.Sid, c.Created, c.Duration, "skipped"⟩ ∧
        ∀ k : CallKey, k ≠ ck →
          (SkipNextCall s n).1.calls.lookup k = s.calls.lookup k) := by
  refine ⟨fun h => SkipNextCall_not_new hq h, fun h hwf => ?_⟩
  rw [SkipNextCall_new hwf hq h]
  refine ⟨rfl, rfl, AList.lookup_insert _, ?_⟩
  intro k hk
  exact AList.lookup_insert_ne hk


/-- C4: when the Call stored under user `u` and key `callID` has status
"skipped", `doCall` leaves the world as it was: no call is placed with the
provider, no SIDLookup is written, and the Call and the User keep their
values. -/
theorem doCall_skipped (env : Env) (w : World) (u : User) (callID : String) (rep : Rep)
    (c : Call) (hget : GetCall w.store u callID = .ok c) (hs : c.Status = "skipped") :
    doCall env w u callID rep = w ∧
      (doCall env w u callID rep).placedCalls = w.placedCalls ∧
      (doCall env w u callID rep).store.sids = w.store.sids ∧
      GetCall (doCall env w u callID rep).store u callID = .ok c ∧
      (doCall env w u callID rep).store.users = w.store.users := by
  have h : doCall env w u callID rep = w := by
    simp [doCall, hget, hs]
  rw [h]
  exact ⟨rfl, rfl, rfl, hget, rfl⟩

theorem randomString_ne_empty (draws : List Nat) : randomString draws ≠ "" := by
  intro h
  have hl : (randomString draws).data.length = 10 := by
    simp [randomString, callKeyLength]
  rw [h] at hl
  simp at hl

theorem InsertCall_ok {s s1 : Store} {n to' : String} {draws : List Nat} {now : Int}
    {c : Call} (h : InsertCall s n to' draws now = (s1, .ok c)) :
    n ≠ "" ∧ c = ⟨randomString draws, to', n, "", now, 0, "new"⟩ ∧
      s1 = { s with
        calls := s.calls.insert (CallKey.mk (NewKey n 0) (NewKey (randomString draws) 0)) c } := by
  unfold InsertCall at h
  simp only at h
  by_cases hn : n = ""
  · subst hn
    simp [PutCallKey, CallKey.valid, ID.Incomplete, NewKey] at h
  · have hk := randomString_ne_empty draws
    have hp : PutCallKey s.calls ⟨NewKey n 0, NewKey (randomString draws) 0⟩
        ⟨randomString draws, to', n, "", now, 0, "new"⟩
        = .ok (s.calls.insert ⟨NewKey n 0, NewKey (randomString draws) 0⟩
            ⟨randomString draws, to', n, "", now, 0, "new"⟩) := by
      apply PutCallKey_complete <;> simp [CallKey.valid, ID.valid, ID.Incomplete, NewKey, hn, hk]
    rw [hp] at h
    simp only [Prod.mk.injEq, Except.ok.injEq] at h
    obtain ⟨h1, h2⟩ := h
    subst h2
    exact ⟨hn, rfl, h1.symm⟩

/-- `UpdateCallBySID` when the SIDLookup of `sid` leads to a stored Call. -/
theorem UpdateCallBySID_found (s : Store) (sid status : String) (d : Int) (ck : CallKey)
    (c : Call) (hl : lookupBySID s sid = some ck) (hg : GetCallKey s.calls ck = .ok c) :
    UpdateCallBySID s sid status d
      = (Store.mk s.users (s.calls.insert ck
            ⟨c.Key, c.To, c.From, c.Sid, c.Created, if d ≠ 0 then d else c.Duration, status⟩)
          s.sids, .ok ()) := by
  have hv : ck.valid = true ∧ ck.id.Incomplete = false := by
    unfold GetCallKey at hg
    by_cases h1 : ck.valid = true
    · by_cases h2 : ck.id.Incomplete = true
      · simp [h1, h2] at hg
      · exact ⟨h1, by simpa using h2⟩
    · simp [h1] at hg
  unfold UpdateCallBySID
  simp only [hl]
  apply RunInTransaction_ok
  simp only [hg]
  by_cases hd : d = 0
  · simp [hd, PutCallKey_complete _ _ _ hv.1 hv.2]
  · simp [hd, PutCallKey_complete _ _ _ hv.1 hv.2]

/-- C5: for a Call created by `InsertCall` for user `u`, `SetSID` with a
non-empty `sid` followed by `UpdateCallBySID(sid, status, d)` both succeed and
leave the Call stored with `Status = status` and `Duration = d`, its other
fields as created and `Sid = sid`.  In every store, when `sid` resolves to a
stored Call, `UpdateCallBySID` replaces `Status`, replaces `Duration` only
when `d` is nonzero, and keeps `Key`, `To`, `From`, `Sid` and `Created`. -/
theorem status_round_trip (s s1 : Store) (u : User) (to' : String) (draws : List Nat)
    (now : Int) (c : Call) (sid status : String) (d : Int)
    (hins : InsertCall s u.PhoneNumber to' draws now = (s1, .ok c)) (hsid : sid ≠ "") :
    (c.Status = "new" ∧ c.Duration = 0) ∧
      (SetSID s1 u c.Key sid).2 = .ok () ∧
      (UpdateCallBySID (SetSID s1 u c.Key sid).1 sid status d).2 = .ok () ∧
      GetCall (UpdateCallBySID (SetSID s1 u c.Key sid).1 sid status d).1 u c.Key
        = .ok ⟨c.Key, c.To, c.From, sid, c.Created, d, status⟩ ∧
      ∀ (t : Store) (ck : CallKey) (c0 : Call), lookupBySID t sid = some ck →
        GetCallKey t.calls ck = .ok c0 →
        (UpdateCallBySID t sid status d).2 = .ok () ∧
        GetCallKey (UpdateCallBySID t sid status d).1.calls ck
          = .ok ⟨c0.Key, c0.To, c0.From, c0.Sid, c0.Created,
              if d ≠ 0 then d else c0.Duration, status⟩ := by
  obtain ⟨hn, hc, hs1⟩ := InsertCall_ok hins
  have hkey : c.Key = randomString draws := by rw [hc]
  have hk := randomString_ne_empty draws
  have hv : (CallKey.mk (NewKey u.PhoneNumber 0) (NewKey c.Key 0)).valid = true ∧
      (CallKey.mk (NewKey u.PhoneNumber 0) (NewKey c.Key 0)).id.Incomplete = false := by
    constructor <;> simp [CallKey.valid, ID.valid, ID.Incomplete, NewKey, hn, hk, hkey]
  -- SetSID
  have hstore : storeSIDLookup s1 sid u.PhoneNumber c.Key
      = { s1 with sids := s1.sids.insert (NewKey sid 0) ⟨NewKey u.PhoneNumber 0, NewKey c.Key 0⟩ } := by
    simp [storeSIDLookup, Put, ID.valid, ID.Incomplete, NewKey, hsid]
  have hlook1 : s1.calls.lookup ⟨NewKey u.PhoneNumber 0, NewKey c.Key 0⟩ = some c := by
    rw [hs1, hkey]
    exact AList.lookup_insert _
  have hset : SetSID s1 u c.Key sid
      = ({ s1 with
            sids := s1.sids.insert (NewKey sid 0) ⟨NewKey u.PhoneNumber 0, NewKey c.Key 0⟩
            calls := s1.calls.insert ⟨NewKey u.PhoneNumber 0, NewKey c.Key 0⟩
              { c with Sid := sid } }, .ok ()) := by
    unfold SetSID
    simp only [hstore]
    apply RunInTransaction_ok
    simp only [GetCallKey_complete _ _ _ hv.1 hv.2 hlook1, PutCallKey_complete _ _ _ hv.1 hv.2]
  have hgen : ∀ (t : Store) (ck : CallKey) (c0 : Call), lookupBySID t sid = some ck →
      GetCallKey t.calls ck = .ok c0 →
      (UpdateCallBySID t sid status d).2 = .ok () ∧
      GetCallKey (UpdateCallBySID t sid status d).1.calls ck
        = .ok ⟨c0.Key, c0.To, c0.From, c0.Sid, c0.Created,
            if d ≠ 0 then d else c0.Duration, status⟩ := by
    intro t ck c0 hl hg
    have hv0 : ck.valid = true ∧ ck.id.Incomplete = false := by
      unfold GetCallKey at hg
      by_cases h1 : ck.valid = true
      · by_cases h2 : ck.id.Incomplete = true
        · simp [h1, h2] at hg
        · exact ⟨h1, by simpa using h2⟩
      · simp [h1] at hg
    rw [UpdateCallBySID_found t sid status d ck c0 hl hg]
    exact ⟨rfl, GetCallKey_complete _ _ _ hv0.1 hv0.2 (AList.lookup_insert _)⟩
  have hl2 : lookupBySID (SetSID s1 u c.Key sid).1 sid
      = some ⟨NewKey u.PhoneNumber 0, NewKey c.Key 0⟩ := by
    rw [hset]
    simp [lookupBySID, Get, ID.valid, ID.Incomplete, NewKey, hsid, AList.lookup_insert]
  have hg2 : GetCallKey (SetSID s1 u c.Key sid).1.calls ⟨NewKey u.PhoneNumber 0, NewKey c.Key 0⟩
      = .ok { c with Sid := sid } := by
    rw [hset]
    exact GetCallKey_complete _ _ _ hv.1 hv.2 (AList.lookup_insert _)
  obtain ⟨r1, r2⟩ := hgen _ _ _ hl2 hg2
  refine ⟨by rw [hc]; exact ⟨rfl, rfl⟩, by rw [hset], r1, ?_, hgen⟩
  unfold GetCall
  simp only
  rw [r2]
  have hdur : c.Duration = 0 := by rw [hc]
  by_cases hd : d = 0
  · simp [hd, hdur]
  · simp [hd]

/-- C6: a POST status callback whose `ParentCallSid` has no SIDLookup leaves the
whole world, every Call included, as it was; `UpdateCallBySID` returns the
error "sid lookup failed" with the store unchanged; and the handler answers
200 with an empty body. -/
theorem callStatus_unknown_sid (env : Env) (w : World) (r : Request)
    (hm : r.Method = "POST")
    (hl : lookupBySID w.store (r.FormValue "ParentCallSid") = none) :
    callStatus env w r = (w, ⟨200, .empty⟩) ∧
      ∀ (status : String) (d : Int),
        UpdateCallBySID w.store (r.FormValue "ParentCallSid") status d
          = (w.store, .error .sidLookupFailed) := by
  have hu : ∀ (status : String) (d : Int),
      UpdateCallBySID w.store (r.FormValue "ParentCallSid") status d
        = (w.store, .error .sidLookupFailed) := by
    intro status d
    simp [UpdateCallBySID, hl]
  refine ⟨?_, hu⟩
  simp [callStatus, hm, hu]

/-! ## Inbound texts -/

theorem isDigit_ne_space {c : Char} (h : isDigit c = true) : c ≠ ' ' := by
  intro hc
  subst hc
  revert h
  decide

theorem data_of_zip {z : String} (h5 : z.length = 5) :
    ∃ a b c d e : Char, z.data = [a, b, c, d, e] := by
  have hl : z.data.length = 5 := h5
  match hz : z.data, hl with
  | [a, b, c, d, e], _ => exact ⟨a, b, c, d, e, rfl⟩

/-- `isJoin` accepts "JOIN " followed by five digits, and `Split` yields the
digits as its second element. -/
theorem join_zip (z : String) (h5 : z.length = 5) (hd : z.data.all isDigit = true) :
    isJoin ("JOIN " ++ z) = true ∧ (Split ("JOIN " ++ z)).getD 1 "" = z := by
  obtain ⟨a, b, c, d, e, hz⟩ := data_of_zip h5
  rw [hz] at hd
  simp only [List.all_cons, List.all_nil, Bool.and_true, Bool.and_eq_true] at hd
  obtain ⟨ha, hb, hc, hd', he⟩ := hd
  have hdata : ("JOIN " ++ z).data = ['J', 'O', 'I', 'N', ' ', a, b, c, d, e] := by
    rw [String.data_append, hz]
    rfl
  have hzs : z = String.mk [a, b, c, d, e] := by
    rw [← hz]
  constructor
  · unfold isJoin
    rw [hdata]
    simp [List.tails, matchJoinAt, ha, hb, hc, hd', he]
  · have h1 := isDigit_ne_space ha
    have h2 := isDigit_ne_space hb
    have h3 := isDigit_ne_space hc
    have h4 := isDigit_ne_space hd'
    have h5' := isDigit_ne_space he
    unfold Split
    rw [hdata, hzs]
    simp [splitChars, h1, h2, h3, h4, h5']

theorem NewKey_named {n : String} (hn : n ≠ "") :
    (NewKey n 0).valid = true ∧ (NewKey n 0).Incomplete = false := by
  constructor <;> simp [ID.valid, ID.Incomplete, NewKey, hn]

theorem GetUser_of_lookup {s : Store} {n : String} (hn : n ≠ "") :
    GetUser s n = match s.users.lookup (NewKey n 0) with
      | some v => .ok v
      | none => .error .ErrNoSuchEntity := by
  obtain ⟨h1, h2⟩ := NewKey_named hn
  unfold GetUser Get
  simp only [h1, h2, Bool.not_true, Bool.false_eq_true, if_false]
  cases s.users.lookup (NewKey n 0) <;> rfl

theorem GetUser_empty (s : Store) : GetUser s "" = .error .badRequest := by
  simp [GetUser, Get, ID.valid, ID.Incomplete, NewKey]

theorem GetUser_not_found {s : Store} {n : String}
    (h : GetUser s n = .error .ErrNoSuchEntity) :
    n ≠ "" ∧ s.users.lookup (NewKey n 0) = none := by
  by_cases hn : n = ""
  · subst hn
    rw [GetUser_empty] at h
    exact absurd h (by simp)
  · refine ⟨hn, ?_⟩
    rw [GetUser_of_lookup hn] at h
    cases hl : s.users.lookup (NewKey n 0) with
    | none => rfl
    | some u =>
      rw [hl] at h
      exact absurd h (by simp)

theorem GetUser_found {s : Store} {n : String} {u : User} (h : GetUser s n = .ok u) :
    n ≠ "" ∧ s.users.lookup (NewKey n 0) = some u := by
  by_cases hn : n = ""
  · subst hn
    rw [GetUser_empty] at h
    exact absurd h (by simp)
  · refine ⟨hn, ?_⟩
    rw [GetUser_of_lookup hn] at h
    cases hl : s.users.lookup (NewKey n 0) with
    | none =>
      rw [hl] at h
      exact absurd h (by simp)
    | some u' =>
      rw [hl] at h
      simp only [Except.ok.injEq] at h
      rw [h]

theorem InsertUser_named (s : Store) (n zip : String) (now : Int) (draw : Nat) (hn : n ≠ "") :
    InsertUser s n zip now draw
      = (Store.mk (s.users.insert (NewKey n 0) ⟨n, zip, someTimeTomorrow now draw⟩) s.calls
          s.sids, .ok ⟨n, zip, someTimeTomorrow now draw⟩) := by
  obtain ⟨h1, h2⟩ := NewKey_named hn
  unfold InsertUser Put
  simp only [h1, h2, Bool.not_true, Bool.false_eq_true, if_false]

/-- C7: a text "JOIN z" (after upper-casing and trimming) with a five-digit `z`
from a number `n` for which `GetUser` reports no such entity stores the User
with `PhoneNumber = n`, `ZipCode = z` and `NextCall = someTimeTomorrow()`,
whose New York date lies 1, 2 or 3 days after today's by the weekday rule;
`GetUser n` then returns that User, and the handler answers 200. -/
theorem incomingText_join (env : Env) (w : World) (r : Request) (n z : String)
    (hm : r.Method = "POST") (hfrom : r.PostFormValue "From" = n)
    (hu : GetUser w.store n = .error .ErrNoSuchEntity)
    (h5 : z.length = 5) (hd : z.data.all isDigit = true)
    (hbody : Trim (env.ToUpper (r.PostFormValue "Body")) = "JOIN " ++ z) :
    GetUser (incomingText env w r).1.store n
        = .ok ⟨n, z, someTimeTomorrow env.now env.draw⟩ ∧
      localDay (someTimeTomorrow env.now env.draw)
        = localDay env.now
          + (if Weekday env.now = Friday then 3 else if Weekday env.now = Saturday then 2
              else 1) ∧
      (incomingText env w r).2.code = 200 ∧
      (incomingText env w r).1.store.calls = w.store.calls ∧
      (incomingText env w r).1.store.sids = w.store.sids := by
  obtain ⟨hn, -⟩ := GetUser_not_found hu
  obtain ⟨hj, hs⟩ := join_zip z h5 hd
  have hrun : incomingText env w r
      = (World.mk (Store.mk
            (w.store.users.insert (NewKey n 0) ⟨n, z, someTimeTomorrow env.now env.draw⟩)
            w.store.calls w.store.sids) w.placedCalls w.sentSMS w.tasks,
          respond [.SMS ("Thank you, you have joined!\nText QUIT any time to stop.\n"
            ++ defaultText env ⟨n, z, someTimeTomorrow env.now env.draw⟩)]) := by
    have hs' : (Split ("JOIN " ++ z))[1]?.getD "" = z := by simpa using hs
    simp [incomingText, hm, hfrom, hu, hbody, isNotUser, hj, hs', InsertUser_named _ _ _ _ _ hn]
  rw [hrun]
  refine ⟨?_, ?_, rfl, rfl, rfl⟩
  · rw [GetUser_of_lookup hn]
    simp [AList.lookup_insert]
  · rw [localDay_someTimeTomorrow, addDays_eq]

/-- C8 (the code at the failing input): the text "please join 12345" from a
number without User matches the unanchored `joinRE`, and the User is stored
with the zip code "JOIN", the second word of the body. -/
theorem incomingText_please_join :
    GetUser world0.store "5550000" = .error .ErrNoSuchEntity ∧
      Trim (env0.ToUpper (pleaseJoin.PostFormValue "Body")) = "PLEASE JOIN 12345" ∧
      (GetUser (incomingText env0 world0 pleaseJoin).1.store "5550000").map
        (fun u => u.ZipCode) = .ok "JOIN" := by
  decide

/-- C9: a text QUIT or STOP (after upper-casing and trimming) from a number `n`
with a User deletes that User, so that `GetUser n` reports no such entity and
`isNotUser` holds of its error; the reply is the farewell text; every other
User, every Call and every SIDLookup stays as it was. -/
theorem incomingText_quit (env : Env) (w : World) (r : Request) (n : String) (u : User)
    (hm : r.Method = "POST") (hfrom : r.PostFormValue "From" = n)
    (hu : GetUser w.store n = .ok u)
    (hbody : Trim (env.ToUpper (r.PostFormValue "Body")) = "QUIT" ∨
      Trim (env.ToUpper (r.PostFormValue "Body")) = "STOP") :
    GetUser (incomingText env w r).1.store n = .error .ErrNoSuchEntity ∧
      isNotUser (errorOf (GetUser (incomingText env w r).1.store n)) = true ∧
      (incomingText env w r).2
        = respond [.SMS "You quit. Text \"JOIN <ZIPCODE>\" at any time to get back in the fight."] ∧
      (∀ k : ID, k ≠ NewKey n 0 →
        (incomingText env w r).1.store.users.lookup k = w.store.users.lookup k) ∧
      (incomingText env w r).1.store.calls = w.store.calls ∧
      (incomingText env w r).1.store.sids = w.store.sids := by
  obtain ⟨hn, -⟩ := GetUser_found hu
  have hdel : DeleteUser w.store n = Store.mk (w.store.users.erase (NewKey n 0)) w.store.calls
      w.store.sids := by
    obtain ⟨h1, h2⟩ := NewKey_named hn
    unfold DeleteUser Delete
    simp only [h1, h2, Bool.not_true, Bool.false_eq_true, if_false]
  have hrun : incomingText env w r
      = (World.mk (Store.mk (w.store.users.erase (NewKey n 0)) w.store.calls w.store.sids)
            w.placedCalls w.sentSMS w.tasks,
          respond [.SMS "You quit. Text \"JOIN <ZIPCODE>\" at any time to get back in the fight."])
      := by
    rcases hbody with hb | hb
    · simp [incomingText, hm, hfrom, hu, hb, hdel]
    · simp [incomingText, hm, hfrom, hu, hb, hdel]
  rw [hrun]
  have hg : GetUser (Store.mk (w.store.users.erase (NewKey n 0)) w.store.calls w.store.sids) n
      = .error .ErrNoSuchEntity := by
    rw [GetUser_of_lookup hn]
    simp [AList.lookup_erase]
  refine ⟨hg, ?_, rfl, ?_, rfl, rfl⟩
  · simp only [hg]
    decide
  · intro k hk
    exact AList.lookup_erase_ne hk



/-! ## The query of `SkipNextCall` and the key invariant -/

/-- No Call of user `n` was created after the Call that `latestCall` returns. -/
theorem latestCall_greatest {s : Store} {n : String} {ck : CallKey} {c : Call}
    (h : latestCall s n = .ok (ck, c)) (k : CallKey) (c' : Call)
    (hl : s.calls.lookup k = some c') (hp : k.parent = NewKey n 0) :
    c'.Created ≤ c.Created := by
  obtain ⟨-, hmem, -, hall⟩ := latestCall_ok h
  have hm : Sigma.mk k c' ∈ s.calls.entries := AList.mem_lookup_iff.mp hl
  rcases hall ⟨k, c'⟩ hm hp with h1 | h1
  · have heq := s.calls.nodupKeys.eq_of_fst_eq hm hmem h1
    cases heq
    exact le_refl _
  · simp only [before, Bool.or_eq_true, decide_eq_true_eq, Bool.and_eq_true, beq_iff_eq] at h1
    rcases h1 with h1 | h1
    · exact le_of_lt h1
    · exact le_of_eq h1.1.symm

/-- A Call of user `n` created after every other Call of `n` is the one that
`latestCall` returns. -/
theorem latestCall_of_latest {s : Store} {n : String} {ck : CallKey} {c : Call}
    (hn : n ≠ "") (hl : s.calls.lookup ck = some c) (hp : ck.parent = NewKey n 0)
    (hlt : ∀ (k : CallKey) (c' : Call), s.calls.lookup k = some c' → k.parent = NewKey n 0 →
      k ≠ ck → c'.Created < c.Created) :
    latestCall s n = .ok (ck, c) := by
  have hm : Sigma.mk ck c ∈ s.calls.entries := AList.mem_lookup_iff.mp hl
  have hinc : (NewKey n 0).Incomplete = false := (NewKey_named hn).2
  obtain ⟨rows, hrows⟩ : ∃ rows, rows
      = s.calls.entries.filter (fun e => e.1.parent == NewKey n 0) := ⟨_, rfl⟩
  have hmr : Sigma.mk ck c ∈ rows := by
    rw [hrows, List.mem_filter]
    exact ⟨hm, by simpa using hp⟩
  have hpred : rows.all (fun e' => e'.1 == ck || before ⟨ck, c⟩ e') = true := by
    rw [List.all_eq_true]
    intro e he
    rw [hrows, List.mem_filter] at he
    by_cases hk : e.1 = ck
    · simp [hk]
    · have hc := hlt e.1 e.2 (AList.mem_lookup_iff.mpr he.1) (by simpa using he.2) hk
      simp [before, hc]
  unfold latestCall
  simp only [hinc, Bool.false_eq_true, if_false, ← hrows]
  cases hf : rows.find? (fun e => rows.all (fun e' => e'.1 == e.1 || before e e')) with
  | none =>
    rw [List.find?_eq_none] at hf
    exact absurd hpred (hf _ hmr)
  | some e =>
    have he := List.find?_some hf
    have hem := List.mem_of_find?_eq_some hf
    have hee : e ∈ s.calls.entries := by
      rw [hrows, List.mem_filter] at hem
      exact hem.1
    have hpe : e.1.parent = NewKey n 0 := by
      rw [hrows, List.mem_filter] at hem
      simpa using hem.2
    by_cases hk : e.1 = ck
    · have heq := s.calls.nodupKeys.eq_of_fst_eq hee hm hk
      rw [heq]
    · rw [List.all_eq_true] at he
      have h1 := he ⟨ck, c⟩ hmr
      have hc := hlt e.1 e.2 (AList.mem_lookup_iff.mpr hee) hpe hk
      have hk' : ¬ ck = e.1 := fun h => hk h.symm
      simp only [before, hk', beq_iff_eq, Bool.false_or, Bool.or_eq_true, decide_eq_true_eq,
        Bool.and_eq_true, false_or] at h1
      rcases h1 with h2 | h2
      · omega
      · obtain ⟨h3, -⟩ := h2
        omega

theorem freshID_complete (ids : List ID) :
    (freshID ids).valid = true ∧ (freshID ids).Incomplete = false := by
  constructor <;> simp [freshID, ID.valid, ID.Incomplete]

theorem wellFormed_insert {s : Store} (hwf : s.wellFormed = true) (k : CallKey) (c : Call)
    (hv : k.valid = true) (hi : k.id.Incomplete = false) :
    (Store.mk s.users (s.calls.insert k c) s.sids).wellFormed = true := by
  simp only [Store.wellFormed, List.all_eq_true] at hwf ⊢
  intro j hj
  rw [AList.keys_insert] at hj
  rcases List.mem_cons.mp hj with rfl | hj
  · simp [hv, hi]
  · exact hwf j (List.mem_of_mem_erase hj)

/-- `datastore.Put` on kind "Call" keeps every stored key complete. -/
theorem wellFormed_PutCallKey {s : Store} (hwf : s.wellFormed = true) (k : CallKey) (c : Call)
    (t : AList (fun _ : CallKey => Call)) (h : PutCallKey s.calls k c = .ok t) :
    (Store.mk s.users t s.sids).wellFormed = true := by
  unfold PutCallKey at h
  by_cases hv : k.valid = true
  · by_cases hi : k.id.Incomplete = true
    · simp only [hv, hi, Bool.not_true, Bool.false_eq_true, if_false, if_true,
        Except.ok.injEq] at h
      rw [← h]
      obtain ⟨f1, f2⟩ := freshID_complete (s.calls.keys.map (fun j => j.id))
      apply wellFormed_insert hwf
      · simp only [CallKey.valid, Bool.and_eq_true, Bool.not_eq_true'] at hv ⊢
        exact ⟨⟨f1, hv.1.2⟩, hv.2⟩
      · exact f2
    · simp only [hv, hi, Bool.not_true, Bool.false_eq_true, if_false, Except.ok.injEq] at h
      rw [← h]
      exact wellFormed_insert hwf k c hv (by simpa using hi)
  · simp [hv] at h

theorem RunInTransaction_store {α : Type} (s : Store) (f : Store → Store × Except Error α) :
    (RunInTransaction s f).1 = s ∨
      ∃ a, f s = ((RunInTransaction s f).1, .ok a) := by
  unfold RunInTransaction
  rcases hf : f s with ⟨s', e | a⟩
  · exact Or.inl rfl
  · exact Or.inr ⟨a, rfl⟩

/-- `SkipNextCall` keeps every stored Call key complete. -/
theorem SkipNextCall_wellFormed (s : Store) (n : String) (hwf : s.wellFormed = true) :
    (SkipNextCall s n).1.wellFormed = true := by
  unfold SkipNextCall
  rcases RunInTransaction_store s _ with h | ⟨a, h⟩
  · rw [h]; exact hwf
  · generalize (RunInTransaction s _).1 = s' at h
    simp only at h
    split at h
    · simp at h
    · split at h
      · simp at h
      · split at h
        · simp at h
        · rename_i t hp
          simp only [Prod.mk.injEq, Except.ok.injEq] at h
          rw [← h.1]
          exact wellFormed_PutCallKey hwf _ _ t hp

/-- `InsertCall` keeps every stored Call key complete. -/
theorem InsertCall_wellFormed (s : Store) (n to' : String) (draws : List Nat) (now : Int)
    (hwf : s.wellFormed = true) : (InsertCall s n to' draws now).1.wellFormed = true := by
  unfold InsertCall
  simp only
  split
  · exact hwf
  · rename_i t hp
    exact wellFormed_PutCallKey hwf _ _ t hp

/-- `UpdateCallBySID` keeps every stored Call key complete. -/
theorem UpdateCallBySID_wellFormed (s : Store) (sid status : String) (d : Int)
    (hwf : s.wellFormed = true) : (UpdateCallBySID s sid status d).1.wellFormed = true := by
  unfold UpdateCallBySID
  split
  · exact hwf
  · rcases RunInTransaction_store s _ with h | ⟨a, h⟩
    · rw [h]; exact hwf
    · generalize (RunInTransaction s _).1 = s' at h
      simp only at h
      split at h
      · simp at h
      · split at h
        · simp at h
        · rename_i t hp
          simp only [Prod.mk.injEq, Except.ok.injEq] at h
          rw [← h.1]
          exact wellFormed_PutCallKey hwf _ _ t hp

theorem wellFormed_of_calls {s t : Store} (hwf : s.wellFormed = true) (h : t.calls = s.calls) :
    t.wellFormed = true := by
  simp only [Store.wellFormed, h] at hwf ⊢
  exact hwf

theorem storeSIDLookup_calls (s : Store) (sid user call : String) :
    (storeSIDLookup s sid user call).calls = s.calls := by
  unfold storeSIDLookup
  simp only
  split <;> rfl

/-- `SetSID` keeps every stored Call key complete. -/
theorem SetSID_wellFormed (s : Store) (u : User) (callID sid : String)
    (hwf : s.wellFormed = true) : (SetSID s u callID sid).1.wellFormed = true := by
  have hwf1 : (storeSIDLookup s sid u.PhoneNumber callID).wellFormed = true :=
    wellFormed_of_calls hwf (storeSIDLookup_calls s sid u.PhoneNumber callID)
  unfold SetSID
  simp only
  rcases RunInTransaction_store (storeSIDLookup s sid u.PhoneNumber callID) _ with h | ⟨a, h⟩
  · rw [h]; exact hwf1
  · generalize (RunInTransaction (storeSIDLookup s sid u.PhoneNumber callID) _).1 = s' at h
    split at h
    · simp at h
    · split at h
      · simp at h
      · rename_i t hp
        simp only [Prod.mk.injEq, Except.ok.injEq] at h
        rw [← h.1]
        exact wellFormed_PutCallKey hwf1 _ _ t hp

/-- The store without entities has only complete keys. -/
theorem wellFormed_empty : (Store.mk ∅ ∅ ∅).wellFormed = true := by
  decide


/-! ## The theorems at concrete inputs -/

theorem SkipNextCall_then_again_witness :
    (SkipNextCall store0 userPhone).2 = .ok () ∧
      GetCallKey (SkipNextCall store0 userPhone).1.calls latestKey0
        = .ok { latestCall0 with Status := "skipped" } ∧
      (SkipNextCall (SkipNextCall store0 userPhone).1 userPhone).2
        = .error .ErrNoSkippableCalls :=
  SkipNextCall_then_again store0 userPhone latestKey0 latestCall0 (by decide) (by decide)
    (by decide)

theorem SkipNextCall_frame_witness :
    latestCall store1 userPhone
        = .ok (⟨NewKey userPhone 0, NewKey "aaaaaaaaaa" 0⟩,
            ⟨"aaaaaaaaaa", "2025550102", userPhone, "CA1", 100, 60000000000, "completed"⟩) ∧
      SkipNextCall store1 userPhone = (store1, .error .ErrNoSkippableCalls) :=
  ⟨by decide,
    (SkipNextCall_frame store1 userPhone ⟨NewKey userPhone 0, NewKey "aaaaaaaaaa" 0⟩
      ⟨"aaaaaaaaaa", "2025550102", userPhone, "CA1", 100, 60000000000, "completed"⟩
      (by decide)).1 (by decide)⟩

theorem doCall_skipped_witness :
    GetCall world0.store user1 "cccccccccc"
        = .ok ⟨"cccccccccc", "2025550103", "5551234", "", 300, 0, "skipped"⟩ ∧
      doCall env0 world0 user1 "cccccccccc" rep0 = world0 :=
  ⟨by decide,
    (doCall_skipped env0 world0 user1 "cccccccccc" rep0
      ⟨"cccccccccc", "2025550103", "5551234", "", 300, 0, "skipped"⟩ (by decide) (by decide)).1⟩

theorem status_round_trip_witness :
    GetCall (UpdateCallBySID (SetSID (InsertCall store0 userPhone "2025550199" env0.keyDraws
        400).1 ⟨userPhone, "12345", 1509600000⟩ "abcdefghij" "CA77").1 "CA77" "completed"
        42000000000).1 ⟨userPhone, "12345", 1509600000⟩ "abcdefghij"
      = .ok ⟨"abcdefghij", "2025550199", userPhone, "CA77", 400, 42000000000, "completed"⟩ :=
  (status_round_trip store0 (InsertCall store0 userPhone "2025550199" env0.keyDraws 400).1
    ⟨userPhone, "12345", 1509600000⟩ "2025550199" env0.keyDraws 400 newCall0 "CA77" "completed"
    42000000000 rfl (by decide)).2.2.2.1

theorem callStatus_unknown_sid_witness :
    lookupBySID world0.store (unknownStatus.FormValue "ParentCallSid") = none ∧
      callStatus env0 world0 unknownStatus = (world0, ⟨200, .empty⟩) :=
  ⟨by decide, (callStatus_unknown_sid env0 world0 unknownStatus (by decide) (by decide)).1⟩

theorem incomingText_join_witness :
    GetUser world0.store "5550000" = .error .ErrNoSuchEntity ∧
      GetUser (incomingText env0 world0 joinText).1.store "5550000"
        = .ok ⟨"5550000", "12345", someTimeTomorrow env0.now env0.draw⟩ :=
  ⟨by decide,
    (incomingText_join env0 world0 joinText "5550000" "12345" (by decide) (by decide)
      (by decide) (by decide) (by decide) (by decide)).1⟩

theorem incomingText_quit_witness :
    GetUser world0.store userPhone = .ok ⟨userPhone, "12345", 1509600000⟩ ∧
      GetUser (incomingText env0 world0 quitText).1.store userPhone
        = .error .ErrNoSuchEntity :=
  ⟨by decide,
    (incomingText_quit env0 world0 quitText userPhone ⟨userPhone, "12345", 1509600000⟩
      (by decide) (by decide) (by decide) (by decide)).1⟩


/-! ## Calendar and zone at known instants -/

/-- 1 November 2017 17:20 EDT is a Wednesday. -/
theorem calendar_2017_11_01 :
    (Year 1509571200, Month 1509571200, Day 1509571200, Weekday 1509571200,
      localSecondOfDay 1509571200) = (2017, 11, 1, 3, 17 * 3600 + 20 * 60) := by
  decide

/-- Daylight saving time of 2017 ran from 12 March 07:00 UTC to 5 November
06:00 UTC. -/
theorem dst_2017 : dstStart 2017 = 1489302000 ∧ dstEnd 2017 = 1509861600 := by
  decide

/-- From Friday 3 November 2017 (EDT) the next call falls on Monday 6 November
(EST), from Sunday 31 December 2017 on Monday 1 January 2018. -/
theorem someTimeTomorrow_examples :
    someTimeTomorrow 1509753600 0 = 1509987600 ∧
      (Year 1509987600, Month 1509987600, Day 1509987600, Weekday 1509987600)
        = (2017, 11, 6, 1) ∧
      someTimeTomorrow 1514696400 5 = 1514826005 ∧
      (Year 1514826005, Month 1514826005, Day 1514826005, Weekday 1514826005)
        = (2018, 1, 1, 1) := by
  decide

/-- 29 February exists in 2000 and 2024 and not in 1900 (read by the rule). -/
theorem leap_days :
    (Year 951800400, Month 951800400, Day 951800400) = (2000, 2, 29) ∧
      (Year 1709182800, Month 1709182800, Day 1709182800) = (2024, 2, 29) ∧
      dateDays 1900 2 29 = dateDays 1900 3 1 := by
  decide


/-! ## The window of `someTimeTomorrow` -/

/-- C11 (the claim as stated fails): no instant and no draw give a result
later than 17:00:00 on the New York wall clock of the target day. -/
theorem someTimeTomorrow_never_after_5pm :
    ¬ ∃ (now : Int) (draw : Nat),
      (localDay now + addDays now) * 86400 + 17 * 3600 < abs (someTimeTomorrow now draw) := by
  rintro ⟨now, draw, h⟩
  rw [abs_someTimeTomorrow] at h
  have hlt : ((draw % 18000 : Nat) : Int) < 18000 := by omega
  omega

/-- C11 (amended): for every instant and every draw the result of
`someTimeTomorrow` lies on the target day at or after 12:00:00 and strictly
before 17:00:00 on the New York wall clock; the latest result, reached at the
draw 17999, reads 16:59:59. -/
theorem someTimeTomorrow_before_5pm (now : Int) (draw : Nat) :
    localDay (someTimeTomorrow now draw) = localDay now + addDays now ∧
      12 * 3600 ≤ localSecondOfDay (someTimeTomorrow now draw) ∧
      localSecondOfDay (someTimeTomorrow now draw) < 17 * 3600 ∧
      localSecondOfDay (someTimeTomorrow now 17999) = 16 * 3600 + 59 * 60 + 59 := by
  have h := abs_someTimeTomorrow now draw
  have h' := abs_someTimeTomorrow now 17999
  have hlt : ((draw % 18000 : Nat) : Int) < 18000 := by omega
  have he : ((17999 % 18000 : Nat) : Int) = 17999 := by norm_num
  rw [he] at h'
  simp only [localDay, localSecondOfDay, h, h']
  refine ⟨by omega, by omega, by omega, by omega⟩

/-! ## The text SKIP -/

theorem RunInTransaction_error_store {α : Type} (s : Store)
    (f : Store → Store × Except Error α) (e : Error)
    (h : (RunInTransaction s f).2 = .error e) : (RunInTransaction s f).1 = s := by
  unfold RunInTransaction at h ⊢
  rcases hf : f s with ⟨s', e' | a⟩
  · rfl
  · rw [hf] at h
    exact absurd h (by simp)

/-- A failed `SkipNextCall` leaves the store as it was. -/
theorem SkipNextCall_error_store (s : Store) (n : String) (e : Error)
    (h : (SkipNextCall s n).2 = .error e) : (SkipNextCall s n).1 = s := by
  unfold SkipNextCall at h ⊢
  exact RunInTransaction_error_store s _ e h

/-- `SkipNextCall` writes no User and no SIDLookup. -/
theorem SkipNextCall_users_sids (s : Store) (n : String) :
    (SkipNextCall s n).1.users = s.users ∧ (SkipNextCall s n).1.sids = s.sids := by
  unfold SkipNextCall
  rcases RunInTransaction_store s _ with h | ⟨a, h⟩
  · rw [h]
    exact ⟨rfl, rfl⟩
  · generalize (RunInTransaction s _).1 = s' at h
    simp only at h
    split at h
    · simp at h
    · split at h
      · simp at h
      · split at h
        · simp at h
        · simp only [Prod.mk.injEq, Except.ok.injEq] at h
          rw [← h.1]
          exact ⟨rfl, rfl⟩

/-- `SetNextCall` on a stored User. -/
theorem SetNextCall_found (s : Store) (n : String) (next : Int) (u : User) (hn : n ≠ "")
    (hl : s.users.lookup (NewKey n 0) = some u) :
    SetNextCall s n next
      = (Store.mk (s.users.insert (NewKey n 0) ⟨u.PhoneNumber, u.ZipCode, next⟩) s.calls
          s.sids, .ok ⟨u.PhoneNumber, u.ZipCode, next⟩) := by
  obtain ⟨h1, h2⟩ := NewKey_named hn
  unfold SetNextCall
  apply RunInTransaction_ok
  simp only [Get, Put, h1, h2, hl, Bool.not_true, Bool.false_eq_true, if_false]

/-- C12: for a sender `n` with a User who texts SKIP (after upper-casing and
trimming): when `SkipNextCall n` returns an error, whichever it is, the reply
text is empty and the world, the User of `n` included, is as it was; when it
returns none, the User of `n` is stored with `NextCall = someTimeTomorrow()`
and its `PhoneNumber` and `ZipCode` as before, the reply is "Your next call
is " followed by the formatted new time, and no other User and no SIDLookup
is written. -/
theorem incomingText_skip (env : Env) (w : World) (r : Request) (n : String) (u : User)
    (hm : r.Method = "POST") (hfrom : r.PostFormValue "From" = n)
    (hu : GetUser w.store n = .ok u)
    (hbody : Trim (env.ToUpper (r.PostFormValue "Body")) = "SKIP") :
    (∀ e : Error, (SkipNextCall w.store n).2 = .error e →
        incomingText env w r = (w, respond [.SMS ""]) ∧
        GetUser (incomingText env w r).1.store n = .ok u) ∧
      ((SkipNextCall w.store n).2 = .ok () →
        GetUser (incomingText env w r).1.store n
          = .ok ⟨u.PhoneNumber, u.ZipCode, someTimeTomorrow env.now env.draw⟩ ∧
        (incomingText env w r).2
          = respond [.SMS ("Your next call is "
              ++ env.Format (someTimeTomorrow env.now env.draw))] ∧
        (∀ k : ID, k ≠ NewKey n 0 →
          (incomingText env w r).1.store.users.lookup k = w.store.users.lookup k) ∧
        (incomingText env w r).1.store.calls = (SkipNextCall w.store n).1.calls ∧
        (incomingText env w r).1.store.sids = w.store.sids) := by
  obtain ⟨hn, hl⟩ := GetUser_found hu
  constructor
  · intro e he
    have hs := SkipNextCall_error_store w.store n e he
    have hrun : incomingText env w r = (w, respond [.SMS ""]) := by
      rcases hsk : SkipNextCall w.store n with ⟨s1, e1 | a⟩
      · rw [hsk] at hs
        simp only at hs
        subst hs
        simp [incomingText, hm, hfrom, hu, hbody, hsk]
      · rw [hsk] at he
        exact absurd he (by simp)
    rw [hrun]
    exact ⟨rfl, hu⟩
  · intro hok
    obtain ⟨husers, hsids⟩ := SkipNextCall_users_sids w.store n
    rcases hsk : SkipNextCall w.store n with ⟨s1, e1 | a⟩
    · rw [hsk] at hok
      exact absurd hok (by simp)
    · rw [hsk] at husers hsids
      simp only at husers hsids
      have hl1 : s1.users.lookup (NewKey n 0) = some u := by rw [husers]; exact hl
      have hset := SetNextCall_found s1 n (someTimeTomorrow env.now env.draw) u hn hl1
      have hrun : incomingText env w r
          = (World.mk (Store.mk (s1.users.insert (NewKey n 0)
                ⟨u.PhoneNumber, u.ZipCode, someTimeTomorrow env.now env.draw⟩) s1.calls s1.sids)
              w.placedCalls w.sentSMS w.tasks,
            respond [.SMS ("Your next call is "
              ++ env.Format (someTimeTomorrow env.now env.draw))]) := by
        simp [incomingText, hm, hfrom, hu, hbody, hsk, hset, User.NextCallFormatted]
      rw [hrun]
      refine ⟨?_, rfl, ?_, rfl, hsids⟩
      · rw [GetUser_of_lookup hn]
        simp [AList.lookup_insert]
      · intro k hk
        simp only
        rw [AList.lookup_insert_ne hk, husers]

theorem incomingText_skip_witness :
    GetUser world0.store userPhone = .ok ⟨userPhone, "12345", 1509600000⟩ ∧
      GetUser (incomingText env0 world0 skipText).1.store userPhone
        = .ok ⟨userPhone, "12345", someTimeTomorrow env0.now env0.draw⟩ :=
  ⟨by decide,
    ((incomingText_skip env0 world0 skipText userPhone ⟨userPhone, "12345", 1509600000⟩
      (by decide) (by decide) (by decide) (by decide)).2 (by decide)).1⟩

/-! ## The header X-Twilio-Signature -/

/-- C13: two requests to one handler that differ only in the header
X-Twilio-Signature, run in the same world, get the same response and leave
the same world (store, calls placed, texts sent, tasks), for `incomingText`,
`incomingCall`, `connect` and `callStatus` alike; `validateHMAC` does compare
the header with the computed signature (here: two headers of which it accepts
one), and its finding reaches neither the response nor the world. -/
theorem signature_not_enforced (env : Env) (w : World) (method url : String)
    (form query : List (String × String)) (sig1 sig2 : String) :
    incomingText env w ⟨method, url, form, query, sig1⟩
        = incomingText env w ⟨method, url, form, query, sig2⟩ ∧
      incomingCall env w ⟨method, url, form, query, sig1⟩
        = incomingCall env w ⟨method, url, form, query, sig2⟩ ∧
      connect env w ⟨method, url, form, query, sig1⟩
        = connect env w ⟨method, url, form, query, sig2⟩ ∧
      callStatus env w ⟨method, url, form, query, sig1⟩
        = callStatus env w ⟨method, url, form, query, sig2⟩ ∧
      validateHMAC env0 ⟨"POST", "/incomingtext", [("From", userPhone), ("Body", "skip")], [],
          ""⟩ = false ∧
      validateHMAC env0 ⟨"POST", "/incomingtext", [("From", userPhone), ("Body", "skip")], [],
          "forged"⟩ = true := by
  refine ⟨rfl, rfl, rfl, rfl, by decide, by decide⟩

end MakeMeCall
